import Mathlib

/-!
Shallow embedding of the RFP scoring / matching / pricing pipeline
(agents/scoring_agent.py, agents/technical_agent.py, agents/pricing_agent.py,
agents/master_agent.py, graph.py) and proofs of the specification's claims.

Numbers the Python code handles as floats are modelled as rationals (`ℚ`)
where the computation is rational, and as reals (`ℝ`) where it applies the
transcendental `math.exp`.  Python dict keys that may be absent become
`Option` fields; Python `set`s of strings become lists read up to membership,
with `sortedDedup` playing `sorted(list(s))`.  Text is ASCII, as in the
repository's data: `str.lower()` becomes a per-character ASCII map.
-/

namespace RFPA

/-- Rounding to two decimal places, Python's `round(x, 2)`, on rationals. -/
def round2 (q : ℚ) : ℚ := (round (q * 100) : ℤ) / 100

/-- Python whitespace, the ASCII characters regex `\s` matches. -/
def isWsChar (c : Char) : Bool :=
  c = ' ' || c = '\t' || c = '\n' || c = '\r' || c = '\x0b' || c = '\x0c'

/-- Regex word characters `\w` over ASCII: letters, digits, underscore. -/
def isWordChar (c : Char) : Bool :=
  ('a' ≤ c && c ≤ 'z') || ('A' ≤ c && c ≤ 'Z') || ('0' ≤ c && c ≤ '9') || c = '_'

/-- ASCII digit. -/
def isDigitChar (c : Char) : Bool := '0' ≤ c && c ≤ '9'

/-- ASCII lower-casing of one character, as `str.lower()` acts on the
repository's ASCII texts. -/
def lowerChar (c : Char) : Char :=
  if 'A' ≤ c && c ≤ 'Z' then Char.ofNat (c.toNat + 32) else c

/-- `str.lower()` over the character list. -/
def lowerL (cs : List Char) : List Char := cs.map lowerChar

/-- `str.lower()`. -/
def lowerS (s : String) : String := ⟨lowerL s.data⟩

/-- `str.strip()`: drop leading and trailing whitespace. -/
def stripL (cs : List Char) : List Char :=
  ((cs.dropWhile isWsChar).reverse.dropWhile isWsChar).reverse

/-- `str.strip()`. -/
def stripS (s : String) : String := ⟨stripL s.data⟩

/-- Does the first list begin the second? -/
def startsWithL : List Char → List Char → Bool
  | [], _ => true
  | _ :: _, [] => false
  | a :: as, b :: bs => a == b && startsWithL as bs

/-- Substring containment, Python's `needle in hay` read as
`containsL needle hay`. -/
def containsL (needle : List Char) : List Char → Bool
  | [] => startsWithL needle []
  | c :: cs => startsWithL needle (c :: cs) || containsL needle cs

/-- Python's `needle in hay` on strings. -/
def containsS (hay needle : String) : Bool := containsL needle.data hay.data

/-- Code-point lexicographic strict order on character lists, the order
Python's `sorted` uses on strings. -/
def strLtL : List Char → List Char → Bool
  | [], [] => false
  | [], _ :: _ => true
  | _ :: _, [] => false
  | a :: as, b :: bs => a < b || (a == b && strLtL as bs)

/-- Code-point lexicographic strict order on strings. -/
def strLt (a b : String) : Bool := strLtL a.data b.data

/-- Insert into a strictly sorted duplicate-free list, keeping it so: the
building block of the sorted image of a Python `set`. -/
def insertSortedStr (x : String) : List String → List String
  | [] => [x]
  | y :: ys =>
    if strLt x y then x :: y :: ys
    else if x == y then y :: ys
    else y :: insertSortedStr x ys

/-- `sorted(list(set(l)))`: the sorted duplicate-free list of the members
of `l`. -/
def sortedDedup (l : List String) : List String := l.foldr insertSortedStr []

/-- Greedy `\s*`. -/
def skipWs (cs : List Char) : List Char := cs.dropWhile isWsChar

/-- A keyword pattern of `TEST_KEYWORD_MAP`: literal words separated by
`\s*`, each position offering the pattern's alternatives. -/
abbrev KwPattern := List (List String)

/-- Does the keyword pattern match starting exactly here?  The patterns'
words start with non-space letters, so taking `\s*` greedily is complete. -/
def matchHere : KwPattern → List Char → Bool
  | [], _ => true
  | alts :: rest, cs =>
    alts.any (fun a => startsWithL a.data cs && matchHere rest (skipWs (cs.drop a.length)))

/-- `re.search` of a keyword pattern: a match starting anywhere. -/
def searchKw (p : KwPattern) : List Char → Bool
  | [] => matchHere p []
  | c :: cs => matchHere p (c :: cs) || searchKw p cs

/-- A `\b w \b` occurrence beginning exactly here, `prev` being the character
just before (none at the start of the text). -/
def wordAt (w : List Char) (prev : Option Char) (cs : List Char) : Bool :=
  (match prev with | none => true | some c => !isWordChar c)
  && startsWithL w cs
  && (match cs.drop w.length with | [] => true | c :: _ => !isWordChar c)

/-- Search for a word-bounded occurrence, tracking the previous character. -/
def searchWordAux (w : List Char) (prev : Option Char) : List Char → Bool
  | [] => wordAt w prev []
  | c :: cs => wordAt w prev (c :: cs) || searchWordAux w (some c) cs

/-- `re.search(r'\b w \b', text)`. -/
def searchWord (w : String) (cs : List Char) : Bool := searchWordAux w.data none cs

/-- One pattern of `TEST_KEYWORD_MAP`: a `\s*`-separated word sequence or a
word-bounded literal. -/
inductive TestPat where
  | seq : KwPattern → TestPat
  | word : String → TestPat

/-- `re.search(pattern, text)` as a boolean, which is all
`extract_required_tests` uses. -/
def matchPat : TestPat → List Char → Bool
  | .seq p, cs => searchKw p cs
  | .word w, cs => searchWord w cs

/-- `TEST_KEYWORD_MAP` from `agents/pricing_agent.py`, pattern by pattern. -/
def TEST_KEYWORD_MAP : List (TestPat × List String) := [
  (.seq [["high"], ["voltage"], ["withstand"]], ["HVWT-1.1KV", "HVWT-3.5KV", "HVWT-11KV"]),
  (.seq [["hv"], ["withstand"]], ["HVWT-1.1KV", "HVWT-3.5KV", "HVWT-11KV"]),
  (.seq [["voltage"], ["withstand"]], ["HVWT-1.1KV", "HVWT-3.5KV", "HVWT-11KV"]),
  (.seq [["insulation"], ["resistance"]], ["IRT-10M"]),
  (.word "irt", ["IRT-10M"]),
  (.seq [["tensile"], ["strength"]], ["TST-360", "TST-350"]),
  (.seq [["mechanical"], ["test", "testing", "strength"]], ["TST-360", "MI-01"]),
  (.seq [["mechanical"], ["installation"]], ["MII-01"]),
  (.seq [["mechanical"], ["inspection"]], ["MI-01"]),
  (.seq [["documentation"]], ["DOC-01"]),
  (.seq [["certificate", "certification"]], ["DOC-01"]),
  (.seq [["routine"], ["test", "testing", "insulation"]], ["RT-01", "ET-01"]),
  (.seq [["acceptance"], ["test", "testing"]], ["AT-01", "AT-02"]),
  (.seq [["type"], ["test", "testing"]], ["TT-01"]),
  (.seq [["electrical"], ["test", "testing"]], ["ET-01", "ET-02"])]

/-- The three high-voltage-withstand codes. -/
def hvCodes : List String := ["HVWT-1.1KV", "HVWT-3.5KV", "HVWT-11KV"]

/-- Python set membership `x in s` on the list model of the set. -/
def memStr (x : String) (l : List String) : Bool := l.any (fun y => y == x)

/-- The codes of every keyword pattern that fires on the lower-cased text:
the membership of `found_codes` before the voltage filter. -/
def foundCodes (text : String) : List String :=
  (TEST_KEYWORD_MAP.filter (fun pc => matchPat pc.1 (lowerL text.data))).flatMap (fun pc => pc.2)

/-- `found_codes` after the high-voltage filter for the product's voltage
class (`if voltage_rating: ...` in `extract_required_tests`). -/
def foundAfterVoltage (text : String) (voltageRating : Option String) : List String :=
  let found := foundCodes text
  match voltageRating with
  | none => found
  | some vr =>
    if vr == "" then found
    else
      let v : String := ⟨(lowerL vr.data).filter (fun c => !(c == ' '))⟩
      let hvFound := hvCodes.any (fun c => memStr c found)
      if hvFound then
        if containsS v "11kv" then
          found.filter (fun c => !(c == "HVWT-1.1KV" || c == "HVWT-3.5KV"))
        else if containsS v "1.1kv" || containsS v "1.1" then
          found.filter (fun c => !(c == "HVWT-11KV" || c == "HVWT-3.5KV"))
        else if containsS v "0.6kv" || containsS v "415v" || containsS v "0.4kv" then
          found.filter (fun c => !(c == "HVWT-11KV"))
        else found
      else found

/-- `found_codes` after the documentation force-include. -/
def foundAfterDoc (text : String) (vr : Option String) : List String :=
  let found := foundAfterVoltage text vr
  if found.any (fun c => startsWithL "DOC".data c.data) then found else "DOC-01" :: found

/-- `found_codes` after the degenerate-single-code top-up
(`if len(found_codes) == 1`). -/
def foundFinal (text : String) (vr : Option String) : List String :=
  let found := foundAfterDoc text vr
  if found.dedup.length = 1 then "RT-01" :: "IRT-10M" :: found else found

/-- `extract_required_tests` from `agents/pricing_agent.py`. -/
def extract_required_tests (text : String) (voltageRating : Option String) : List String :=
  if stripS text == "" then ["RT-01", "IRT-10M", "DOC-01"]
  else sortedDedup (foundFinal text voltageRating)

/-- One row of the OEM product catalog (a `product_db` row). -/
structure Product where
  productId : String
  productName : String
  category : String
  voltageRating : String
  conductorMaterial : String
  insulationType : String
  numberOfCores : String
  armoring : String
  standardsCompliance : String
  bisCertified : String
  unitPriceInrPerMeter : ℚ
  minOrderQtyMeters : ℤ
  leadTimeDays : ℚ
  warrantyYears : ℚ
deriving DecidableEq

/-- `product_db[product_db["Product_ID"] == pid]` followed by `.iloc[0]`:
the first catalog row with the given id, if any. -/
def findProduct (db : List Product) (pid : String) : Option Product :=
  db.find? (fun r => r.productId == pid)

/-- One row of the Testing Services sheet (`test_services_db`). -/
structure TestService where
  testCode : String
  testName : String
  priceInr : ℚ
  durationHours : ℚ
deriving DecidableEq

/-- One resolved test of a pricing row. -/
structure TestDetail where
  testCode : String
  testName : String
  priceInr : ℚ
  durationHours : ℚ
deriving DecidableEq

/-- `get_test_details` from `agents/pricing_agent.py`: look each code up in
the Testing Services sheet, synthesizing an estimated entry when absent. -/
def get_test_details (codes : List String) (db : List TestService) : List TestDetail :=
  codes.map (fun code =>
    match db.find? (fun r => r.testCode == code) with
    | some row => ⟨code, row.testName, row.priceInr, row.durationHours⟩
    | none => ⟨code, "Test " ++ code ++ " (estimated)", 10000, 2⟩)

/-- The hard-coded fallback test list used when `test_services_db` is not
loaded. -/
def fallbackTestDetails : List TestDetail :=
  [⟨"RT-01", "Routine Insulation Test", 8000, 1⟩,
   ⟨"IRT-10M", "Insulation Resistance Test", 12000, 1⟩,
   ⟨"DOC-01", "Documentation and Certification", 10000, 4⟩]

/-- A `selected_sku` dict of a line-item match; keys the pricing agent reads
with `.get` defaults are `Option` fields. -/
structure SelectedSku where
  productId : String
  productName : Option String
  unitPrice : Option ℚ
  moq : Option ℤ
deriving DecidableEq

/-- One entry of `line_item_matches` as the pricing agent and consolidator
read it. -/
structure ItemResult where
  lineItem : String
  rfpSpecs : List (String × String)
  top3 : List SelectedSku
  selectedSku : Option SelectedSku
deriving DecidableEq

/-- One row of `line_item_pricing`; `sku = none` is the no-match row, whose
`note` the code sets. -/
structure PricingRow where
  lineItem : String
  sku : Option String
  productName : String
  unitPriceInr : ℚ
  moqMeters : ℤ
  materialCostInr : ℚ
  applicableTests : List TestDetail
  testCostInr : ℚ
  lineTotalInr : ℚ
  note : Option String
deriving DecidableEq

/-- The `consolidated_pricing` dict the pricing agent writes. -/
structure ConsolidatedPricing where
  lineItemPricing : List PricingRow
  totalMaterialCost : ℚ
  totalTestCost : ℚ
  grandTotal : ℚ
deriving DecidableEq

/-- The loop body of `pricing_agent` for one line item. -/
def priceLineItem (testingText : String) (productDb : List Product)
    (testDb : Option (List TestService)) (item : ItemResult) : PricingRow :=
  match item.selectedSku with
  | none => ⟨item.lineItem, none, "", 0, 0, 0, [], 0, 0, some "No matching product found"⟩
  | some sku =>
    let pid := sku.productId
    let triple : ℚ × ℤ × String :=
      match findProduct productDb pid with
      | some row => (row.unitPriceInrPerMeter, row.minOrderQtyMeters, row.voltageRating)
      | none => (sku.unitPrice.getD 0, sku.moq.getD 100, "")
    let unitPrice := triple.1
    let moq := triple.2.1
    let voltageRating := triple.2.2
    let materialCost := round2 (unitPrice * (moq : ℚ))
    let requiredCodes := extract_required_tests testingText (some voltageRating)
    let testDetails :=
      match testDb with
      | some tdb => get_test_details requiredCodes tdb
      | none => fallbackTestDetails
    let testCost := round2 ((testDetails.map (fun t => t.priceInr)).sum)
    let lineTotal := round2 (materialCost + testCost)
    ⟨item.lineItem, some pid, sku.productName.getD "", unitPrice, moq, materialCost,
      testDetails, testCost, lineTotal, none⟩

/-- The `pricing_agent` loop: the rows plus the two running totals, to which
the `continue` branch (no selected SKU) adds nothing.  Addition of exact
rationals commutes, so accumulating from the right is the same sum. -/
def priceItems (testingText : String) (productDb : List Product)
    (testDb : Option (List TestService)) : List ItemResult → List PricingRow × ℚ × ℚ
  | [] => ([], 0, 0)
  | item :: rest =>
    let row := priceLineItem testingText productDb testDb item
    let acc := priceItems testingText productDb testDb rest
    match item.selectedSku with
    | none => (row :: acc.1, acc.2.1, acc.2.2)
    | some _ => (row :: acc.1, row.materialCostInr + acc.2.1, row.testCostInr + acc.2.2)

/-- The `consolidated_pricing` value `pricing_agent` builds from a non-empty
`line_item_matches` list. -/
def pricing_core (testingText : String) (items : List ItemResult)
    (productDb : List Product) (testDb : Option (List TestService)) : ConsolidatedPricing :=
  let acc := priceItems testingText productDb testDb items
  ⟨acc.1, round2 acc.2.1, round2 acc.2.2, round2 (acc.2.1 + acc.2.2)⟩

/-- The `consolidated_pricing` value of the `if not line_item_matches`
branch. -/
def emptyConsolidatedPricing : ConsolidatedPricing := ⟨[], 0, 0, 0⟩

/-- One structured RFP as the agents read it.  `deadlineDaysFromNow` stands
for the days the delivery scorer computes from `submissionDeadline` and the
wall clock (an external input to the core); `none` models an unparseable
deadline, for which the scorer's `except` branch keeps the base score. -/
structure Rfp where
  projectName : String
  issuedBy : String
  category : String
  submissionDeadline : String
  deadlineDaysFromNow : Option ℚ
  projectOverview : String
  scopeOfSupply : String
  technicalSpecifications : String
  testingRequirements : String
  deliveryTimeline : String
  pricingDetails : String
  evaluationCriteria : String
  submissionFormat : String
deriving DecidableEq

/-- `normalize` from `agents/technical_agent.py`: `str(val).lower().strip()`. -/
def normalizeS (s : String) : String := stripS (lowerS s)

/-- The flattened, normalized item text the technical agent matches against;
`flatten_json` is the identity on the string fields modelled here. -/
def techText (rfp : Rfp) : String :=
  normalizeS (rfp.technicalSpecifications ++ " " ++ rfp.scopeOfSupply)

/-- One technical-agent match entry. -/
structure TMatch where
  productId : String
  productName : String
  specMatchPercent : ℚ
  category : String
deriving DecidableEq

/-- The six spec fields the technical agent compares. -/
def techSpecsList (row : Product) : List String :=
  [row.voltageRating, row.conductorMaterial, row.insulationType,
   row.numberOfCores, row.armoring, row.standardsCompliance]

/-- How many of the six normalized field values occur in the item text. -/
def techMatchedCount (text : String) (row : Product) : ℕ :=
  ((techSpecsList row).filter (fun v => containsS text (normalizeS v))).length

/-- `round((matched / total) * 100, 2)` with `total = 6`. -/
def techPct (text : String) (row : Product) : ℚ :=
  round2 ((techMatchedCount text row : ℚ) / 6 * 100)

/-- The match entry for one catalog row, kept only when its percentage is
positive. -/
def techEntry (text : String) (row : Product) : Option TMatch :=
  let pct := techPct text row
  if 0 < pct then some ⟨row.productId, row.productName, pct, row.category⟩ else none

/-- Stable insertion into a descending-sorted list: among equal keys the
inserted element, which precedes the others in the original list, stays
first — Python's stable `list.sort(key=..., reverse=True)`. -/
def insertDescBy {α β : Type} [LinearOrder β] (key : α → β) (x : α) : List α → List α
  | [] => [x]
  | y :: ys => if key x < key y then y :: insertDescBy key x ys else x :: y :: ys

/-- Stable descending sort by a key. -/
def sortDescBy {α β : Type} [LinearOrder β] (key : α → β) : List α → List α
  | [] => []
  | x :: xs => insertDescBy key x (sortDescBy key xs)

/-- The technical agent's per-RFP result: top 5 catalog matches by spec
percentage, descending, ties in catalog order. -/
def technical_matches_for (db : List Product) (rfp : Rfp) : List TMatch :=
  (sortDescBy (fun m => m.specMatchPercent) (db.filterMap (techEntry (techText rfp)))).take 5

/-- `re.sub(r'[^\w\s]', ' ', text)`. -/
def cleanText (cs : List Char) : List Char :=
  cs.map (fun c => if isWordChar c || isWsChar c then c else ' ')

/-- The combined lower-cased, punctuation-stripped text `_quick_match_rfp`
scans. -/
def combinedTextOf (rfp : Rfp) : List Char :=
  cleanText (lowerL (rfp.scopeOfSupply ++ " " ++ rfp.technicalSpecifications).data)

/-- The voltage-token regex `(\d+(?:\.\d+)?)\s*(?:kv|v\b)` matched greedily
at this position.  Shrinking a greedy digit run or `\s*` would put a digit
or space where `.`, `k` or `v` is required, so greedy matching is exact. -/
def voltMatchAt (cs : List Char) : Option (List Char) :=
  let d1 := cs.takeWhile isDigitChar
  if d1.isEmpty then none
  else
    let rest1 := cs.drop d1.length
    let fr :=
      match rest1 with
      | '.' :: cs2 =>
        let d2 := cs2.takeWhile isDigitChar
        if d2.isEmpty then (([] : List Char), rest1) else ('.' :: d2, cs2.drop d2.length)
      | _ => (([] : List Char), rest1)
    let ws := fr.2.takeWhile isWsChar
    let rest3 := fr.2.drop ws.length
    if startsWithL "kv".data rest3 then some (d1 ++ fr.1 ++ ws ++ "kv".data)
    else
      match rest3 with
      | 'v' :: rest4 =>
        (match rest4 with
         | [] => some (d1 ++ fr.1 ++ ws ++ ['v'])
         | c :: _ => if isWordChar c then none else some (d1 ++ fr.1 ++ ws ++ ['v']))
      | _ => none

/-- `re.search` of the voltage token: the leftmost match. -/
def findVoltage : List Char → Option (List Char)
  | [] => none
  | c :: cs =>
    match voltMatchAt (c :: cs) with
    | some m => some m
    | none => findVoltage cs

/-- `_has(keywords)` of `_quick_match_rfp`. -/
def quickHas (text : List Char) (kws : List String) : Bool :=
  kws.any (fun k => containsL k.data text)

/-- One quick-matcher entry. -/
structure QMatch where
  productId : String
  specMatchPercent : ℚ
  category : String
  bisCertified : String
deriving DecidableEq

/-- The (score, total) pair `_quick_match_rfp` accumulates over the voltage,
conductor and insulation dimensions for one catalog row. -/
def quickDims (text : List Char) (rfpVoltage : Option (List Char)) (row : Product) : ℕ × ℕ :=
  let v :=
    match rfpVoltage with
    | none => ((0 : ℕ), (0 : ℕ))
    | some rv =>
      let prodV := (lowerL row.voltageRating.data).filter isWordChar
      (if containsL rv prodV || containsL prodV rv then 1 else 0, 1)
  let c :=
    if quickHas text ["copper", "cu "] then
      (if containsL "copper".data (lowerL row.conductorMaterial.data) then 1 else 0, 1)
    else if quickHas text ["aluminium", "aluminum", "al "] then
      (if ["alum", "al"].any (fun w => containsL w.data (lowerL row.conductorMaterial.data))
       then 1 else 0, 1)
    else ((0 : ℕ), (0 : ℕ))
  let i :=
    if quickHas text ["xlpe", "cross linked"] then
      (if containsL "xlpe".data (lowerL row.insulationType.data) then 1 else 0, 1)
    else if quickHas text ["pvc"] then
      (if containsL "pvc".data (lowerL row.insulationType.data) then 1 else 0, 1)
    else ((0 : ℕ), (0 : ℕ))
  (v.1 + c.1 + i.1, v.2 + c.2 + i.2)

/-- The quick-matcher entry for one catalog row: skipped with zero evaluable
dimensions, kept only with a positive rounded percentage. -/
def quickEntry (text : List Char) (rfpVoltage : Option (List Char)) (row : Product) :
    Option QMatch :=
  let st := quickDims text rfpVoltage row
  if st.2 = 0 then none
  else
    let pct := round2 ((st.1 : ℚ) / st.2 * 100)
    if 0 < pct then some ⟨row.productId, pct, row.category, row.bisCertified⟩ else none

/-- The extracted voltage token with its spaces removed,
`vm.group(0).replace(" ", "")`, when the regex matches. -/
def rfpVoltageOf (rfp : Rfp) : Option (List Char) :=
  (findVoltage (combinedTextOf rfp)).map (fun m => m.filter (fun c => !(c == ' ')))

/-- `_quick_match_rfp` from `agents/scoring_agent.py`: candidate products
with their quick percentages, sorted descending, top 10. -/
def _quick_match_rfp (rfp : Rfp) (db : List Product) : List QMatch :=
  (sortDescBy (fun (m : QMatch) => m.specMatchPercent)
    (db.filterMap (quickEntry (combinedTextOf rfp) (rfpVoltageOf rfp)))).take 10

/-- `RFPScorer.WEIGHTS['technical_match']`. -/
def wTechnicalMatch : ℝ := 0.35

/-- `RFPScorer.WEIGHTS['price_competitiveness']`. -/
def wPriceCompetitiveness : ℝ := 0.25

/-- `RFPScorer.WEIGHTS['delivery_capability']`. -/
def wDeliveryCapability : ℝ := 0.15

/-- `RFPScorer.WEIGHTS['compliance']`. -/
def wCompliance : ℝ := 0.15

/-- `RFPScorer.WEIGHTS['risk_score']`. -/
def wRiskScore : ℝ := 0.10

/-- `round(x, 2)` on the real-valued scores. -/
noncomputable def round2R (x : ℝ) : ℝ := ((round (x * 100) : ℤ) : ℝ) / 100

/-- `round(x, 4)` on the real-valued scores. -/
noncomputable def round4R (x : ℝ) : ℝ := ((round (x * 10000) : ℤ) : ℝ) / 10000

/-- `RFPScorer.score_technical_match`: exponential-decay-weighted mean of the
top five positive percentages times a good-match bonus, capped at 100. -/
noncomputable def score_technical_match (matchList : List QMatch) : ℝ :=
  let valid := matchList.filter (fun m => 0 < m.specMatchPercent)
  if valid = [] then 0
  else
    let top := valid.take 5
    let totalScore := (top.enum.map
      (fun p => (p.2.specMatchPercent : ℝ) * Real.exp (-0.3 * (p.1 : ℝ)))).sum
    let totalWeight := (top.enum.map (fun p => Real.exp (-0.3 * (p.1 : ℝ)))).sum
    let avg := if 0 < totalWeight then totalScore / totalWeight else 0
    let good := (valid.filter (fun m => 70 ≤ m.specMatchPercent)).length
    let multiplier := min (1 + ((good : ℝ) - 1) * 0.05) 1.15
    min (avg * multiplier) 100

/-- `RFPScorer.score_price_competitiveness`: logistic penalty on the
deviation of the margin from the 25% benchmark, with thin- and fat-margin
multipliers, clamped to [0, 100]. -/
noncomputable def score_price_competitiveness (db : List Product) (estimatedPrice : ℚ)
    (matchList : List QMatch) : ℝ :=
  if estimatedPrice ≤ 0 ∨ matchList = [] then 0
  else
    let actualCost0 : ℚ := (matchList.map (fun m =>
      match findProduct db m.productId with
      | some row => row.unitPriceInrPerMeter * (row.minOrderQtyMeters : ℚ)
      | none => 0)).sum
    let actualCost : ℚ := if actualCost0 ≤ 0 then estimatedPrice * 0.70 else actualCost0
    let margin : ℚ := (estimatedPrice - actualCost) / estimatedPrice
    let deviation : ℚ := |margin - 0.25|
    let score : ℝ := 100 / (1 + Real.exp (10 * ((deviation : ℝ) - 0.10)))
    let score := if margin < 0.05 then score * 0.5 else if 0.50 < margin then score * 0.6 else score
    max 0 (min score 100)

/-- `RFPScorer.score_delivery_capability`: match-weighted average lead time
against the days remaining to the deadline; rational throughout. -/
def score_delivery_capability_q (db : List Product) (matchList : List QMatch)
    (deadlineDays : Option ℚ) : ℚ :=
  if matchList = [] then 0
  else
    let totalLt : ℚ := (matchList.map (fun m =>
      match findProduct db m.productId with
      | some row => row.leadTimeDays * m.specMatchPercent
      | none => 0)).sum
    let totalW : ℚ := (matchList.map (fun m =>
      match findProduct db m.productId with
      | some _ => m.specMatchPercent
      | none => 0)).sum
    let avgLt := if 0 < totalW then totalLt / totalW else 30
    let base := max 40 (100 - (avgLt - 15) * 0.8)
    let base :=
      match deadlineDays with
      | some days => if days * 0.7 < avgLt then base * 0.7 else base
      | none => base
    max 0 (min base 100)

/-- `RFPScorer.score_compliance`: BIS certification, standards keywords and
capped warranty, averaged over the matches found in the catalog. -/
def score_compliance_q (db : List Product) (matchList : List QMatch) : ℚ :=
  if matchList = [] then 0
  else
    let rows := matchList.filterMap (fun m => findProduct db m.productId)
    let total := rows.length
    let bis := (rows.filter (fun r => lowerS r.bisCertified == "yes")).length
    let stds := (rows.filter (fun r =>
      ["is", "iec", "ieee", "iso"].any
        (fun s => containsS (lowerS r.standardsCompliance) s))).length
    let warrantySum : ℚ := (rows.map (fun r => min r.warrantyYears 5)).sum
    if total = 0 then 0
    else min ((bis : ℚ) / total * 40 + (stds : ℚ) / total * 40 + warrantySum / total / 5 * 20) 100

/-- `RFPScorer.score_risk_assessment`: availability, category diversity and
MOQ consistency, capped at 100. -/
def score_risk_assessment_q (db : List Product) (matchList : List QMatch)
    (estimatedPrice : ℚ) : ℚ :=
  if matchList = [] then 0
  else
    let availability : ℚ := min ((matchList.length : ℚ) * 20) 50
    let categories := (matchList.map (fun m => m.category)).dedup
    let diversity : ℚ := min ((categories.length : ℚ) * 15) 30
    let highMoq := (matchList.filter (fun m =>
      match findProduct db m.productId with
      | some row => decide (500 < row.minOrderQtyMeters)
      | none => false)).length
    let consistency : ℚ := max (20 - (highMoq : ℚ) * 5) 0
    min (availability + diversity + consistency) 100

/-- The unrounded weighted final score of `calculate_final_score`. -/
noncomputable def finalRaw (db : List Product) (matchList : List QMatch)
    (estimatedPrice : ℚ) (deadlineDays : Option ℚ) : ℝ :=
  score_technical_match matchList * wTechnicalMatch
  + score_price_competitiveness db estimatedPrice matchList * wPriceCompetitiveness
  + (score_delivery_capability_q db matchList deadlineDays : ℝ) * wDeliveryCapability
  + (score_compliance_q db matchList : ℝ) * wCompliance
  + (score_risk_assessment_q db matchList estimatedPrice : ℝ) * wRiskScore

/-- The grade ladder of `calculate_final_score`. -/
noncomputable def gradeOf (final : ℝ) : String :=
  if 85 ≤ final then "A+ (Excellent)"
  else if 75 ≤ final then "A (Very Good)"
  else if 65 ≤ final then "B+ (Good)"
  else if 55 ≤ final then "B (Satisfactory)"
  else if 45 ≤ final then "C (Marginal)"
  else "D (Poor)"

/-- The recommendation ladder of `calculate_final_score`. -/
noncomputable def recommendationOf (final tech price : ℝ) : String :=
  if 75 ≤ final then "STRONGLY RECOMMEND — Proceed with bid preparation"
  else if 60 ≤ final then
    if tech < 60 then "CONDITIONAL — Technical gaps identified, assess feasibility"
    else if price < 60 then "CONDITIONAL — Pricing optimisation needed, review cost structure"
    else "RECOMMEND — Good opportunity with minor optimisation potential"
  else if 45 ≤ final then "CAUTION — Significant gaps, evaluate strategic value before proceeding"
  else "DO NOT PURSUE — Poor fit, resources better allocated elsewhere"

/-- The five per-factor fields of the score breakdown. -/
structure ComponentScores where
  technicalMatch : ℝ
  priceCompetitiveness : ℝ
  deliveryCapability : ℝ
  compliance : ℝ
  riskAssessment : ℝ

/-- The dict `calculate_final_score` returns. -/
structure ScoreResult where
  finalScore : ℝ
  grade : String
  normalizedScore : ℝ
  componentScores : ComponentScores
  weightedContributions : ComponentScores
  recommendation : String

/-- `RFPScorer.calculate_final_score`. -/
noncomputable def calculate_final_score (db : List Product) (matchList : List QMatch)
    (estimatedPrice : ℚ) (deadlineDays : Option ℚ) : ScoreResult :=
  let tech := score_technical_match matchList
  let price := score_price_competitiveness db estimatedPrice matchList
  let delivery : ℝ := (score_delivery_capability_q db matchList deadlineDays : ℝ)
  let comply : ℝ := (score_compliance_q db matchList : ℝ)
  let risk : ℝ := (score_risk_assessment_q db matchList estimatedPrice : ℝ)
  let final := finalRaw db matchList estimatedPrice deadlineDays
  { finalScore := round2R final
    grade := gradeOf final
    normalizedScore := round4R (final / 100)
    componentScores :=
      ⟨round2R tech, round2R price, round2R delivery, round2R comply, round2R risk⟩
    weightedContributions :=
      ⟨round2R (tech * wTechnicalMatch), round2R (price * wPriceCompetitiveness),
       round2R (delivery * wDeliveryCapability), round2R (comply * wCompliance),
       round2R (risk * wRiskScore)⟩
    recommendation := recommendationOf final tech price }

/-- `score_single_rfp`: quick-match the RFP, estimate a price with a 25%
margin over the matched products' catalog cost, and run the full scorer. -/
noncomputable def score_single_rfp (db : List Product) (rfp : Rfp) : ScoreResult :=
  let matchList := _quick_match_rfp rfp db
  let estimatedPrice : ℚ := ((matchList.map (fun m =>
    match findProduct db m.productId with
    | some row => row.unitPriceInrPerMeter * (row.minOrderQtyMeters : ℚ)
    | none => 0)).sum) * 1.25
  calculate_final_score db matchList estimatedPrice rfp.deadlineDaysFromNow

/-- The role-specific summary dicts `master_agent_start` dispatches; only the
fields downstream agents read are carried. -/
structure RfpSummary where
  projectName : String
  submissionDeadline : String
  testingRequirements : String
  scopeOfSupply : String
  technicalSpecifications : String
deriving DecidableEq

/-- `_prepare_technical_summary` restricted to the carried fields. -/
def _prepare_technical_summary (rfp : Rfp) : RfpSummary :=
  ⟨rfp.projectName, rfp.submissionDeadline, rfp.testingRequirements,
   rfp.scopeOfSupply, rfp.technicalSpecifications⟩

/-- `_prepare_pricing_summary` restricted to the carried fields. -/
def _prepare_pricing_summary (rfp : Rfp) : RfpSummary :=
  ⟨rfp.projectName, rfp.submissionDeadline, rfp.testingRequirements,
   rfp.scopeOfSupply, rfp.technicalSpecifications⟩

/-- The `bid_viability` block of the final response, read from `rfp_score`
with `.get` defaults. -/
structure BidViability where
  score : ℝ
  grade : String
  recommendation : String
  componentScores : Option ComponentScores
  weightedContributions : Option ComponentScores

/-- The `summary` block of the final response. -/
structure RespSummary where
  totalMaterialCostInr : ℚ
  totalTestCostInr : ℚ
  grandTotalInr : ℚ

/-- One merged line item of the final response. -/
structure FinalLineItem where
  lineItem : String
  rfpSpecs : List (String × String)
  top3Recommendations : List SelectedSku
  selectedSku : Option SelectedSku
  unitPriceInr : ℚ
  moqMeters : ℤ
  materialCostInr : ℚ
  applicableTests : List TestDetail
  testCostInr : ℚ
  lineTotalInr : ℚ

/-- The `final_response` dict `master_agent_consolidate` builds. -/
structure FinalResponse where
  projectName : String
  issuedBy : String
  deadline : String
  bidViability : BidViability
  lineItems : List FinalLineItem
  summary : RespSummary

/-- The pipeline's shared state dict.  A key that may be absent is an
`Option` field, `none` standing for both an absent key and a Python `None`
or empty-dict value, which the readers treat alike through falsiness or
`.get` defaults. -/
structure PipelineState where
  productDb : List Product
  testServicesDb : Option (List TestService)
  rfps : List Rfp
  selectedRfp : Option Rfp
  rfpScore : Option ScoreResult
  technicalSummary : Option RfpSummary
  pricingSummary : Option RfpSummary
  techMatches : Option (List (List TMatch))
  lineItemMatches : Option (List ItemResult)
  consolidatedPricing : Option ConsolidatedPricing
  prices : Option (List ℚ)
  finalResponse : Option FinalResponse

/-- The `sales_agent` node.  Its scraping, 3-month window filter and
most-urgent selection consume the network and the wall clock, both external
to the core, so the list it leaves in `state["rfps"]` (empty, or the one
selected tender) is a parameter; the node writes no other key. -/
def sales_agentN (fetched : List Rfp) (s : PipelineState) : PipelineState :=
  { s with rfps := fetched }

/-- Python's `{row["line_item"]: row for row in rows}.get(name, {})`: the
last row with the given key, if any. -/
def lookupRowByItem (rows : List PricingRow) (name : String) : Option PricingRow :=
  rows.reverse.find? (fun r => r.lineItem == name)

/-- The `master_agent_start` node: score the shortlisted RFPs, keep the
highest-scored one, dispatch the two summaries. -/
noncomputable def master_agent_startN (s : PipelineState) : PipelineState :=
  match s.rfps with
  | [] =>
    { s with selectedRfp := none, rfpScore := none,
             technicalSummary := none, pricingSummary := none }
  | r0 :: rest =>
    let chosen :=
      match rest with
      | [] => (r0, score_single_rfp s.productDb r0)
      | _ :: _ =>
        let scored := (r0 :: rest).map (fun r => (r, score_single_rfp s.productDb r))
        (sortDescBy (fun (p : Rfp × ScoreResult) => p.2.finalScore) scored).headD
          (r0, score_single_rfp s.productDb r0)
    { s with selectedRfp := some chosen.1, rfpScore := some chosen.2,
             technicalSummary := some (_prepare_technical_summary chosen.1),
             pricingSummary := some (_prepare_pricing_summary chosen.1) }

/-- The `technical_agent` node: per-RFP top-5 matches, written to the
`tech_matches` key (and to no other). -/
def technical_agentN (s : PipelineState) : PipelineState :=
  { s with techMatches := some (s.rfps.map (technical_matches_for s.productDb)) }

/-- The `pricing_agent` node: the empty branch for an empty
`line_item_matches`, else the full per-item pricing. -/
def pricing_agentN (s : PipelineState) : PipelineState :=
  let testingText := (s.pricingSummary.map (fun (p : RfpSummary) => p.testingRequirements)).getD ""
  let items := s.lineItemMatches.getD []
  if items.isEmpty then
    { s with consolidatedPricing := some emptyConsolidatedPricing, prices := some [] }
  else
    let cp := pricing_core testingText items s.productDb s.testServicesDb
    { s with consolidatedPricing := some cp,
             prices := some (cp.lineItemPricing.map (fun r => r.lineTotalInr)) }

/-- One merged row of the final response, pricing fields defaulting to
zero/empty when no pricing row carries the item's key. -/
def mergeLineItem (rows : List PricingRow) (item : ItemResult) : FinalLineItem :=
  let pr := lookupRowByItem rows item.lineItem
  { lineItem := item.lineItem
    rfpSpecs := item.rfpSpecs
    top3Recommendations := item.top3
    selectedSku := item.selectedSku
    unitPriceInr := (pr.map (fun r => r.unitPriceInr)).getD 0
    moqMeters := (pr.map (fun r => r.moqMeters)).getD 0
    materialCostInr := (pr.map (fun r => r.materialCostInr)).getD 0
    applicableTests := (pr.map (fun r => r.applicableTests)).getD []
    testCostInr := (pr.map (fun r => r.testCostInr)).getD 0
    lineTotalInr := (pr.map (fun r => r.lineTotalInr)).getD 0 }

/-- The `master_agent_consolidate` node: merge technical and pricing output
by line-item key, attach the viability score, copy the pricing totals into
the summary.  PDF generation is external and not modelled. -/
noncomputable def master_agent_consolidateN (s : PipelineState) : PipelineState :=
  match s.selectedRfp with
  | none => { s with finalResponse := none }
  | some rfp =>
    let cp := s.consolidatedPricing.getD ⟨[], 0, 0, 0⟩
    let items := s.lineItemMatches.getD []
    let resp : FinalResponse :=
      { projectName := rfp.projectName
        issuedBy := rfp.issuedBy
        deadline := rfp.submissionDeadline
        bidViability :=
          { score := (s.rfpScore.map (fun r => r.finalScore)).getD 0
            grade := (s.rfpScore.map (fun r => r.grade)).getD "N/A"
            recommendation := (s.rfpScore.map (fun r => r.recommendation)).getD ""
            componentScores := s.rfpScore.map (fun r => r.componentScores)
            weightedContributions := s.rfpScore.map (fun r => r.weightedContributions) }
        lineItems := items.map (mergeLineItem cp.lineItemPricing)
        summary := ⟨cp.totalMaterialCost, cp.totalTestCost, cp.grandTotal⟩ }
    { s with finalResponse := some resp }

/-- The compiled graph of `graph.py`:
`sales → master_start → technical → pricing → master_consolidate`. -/
noncomputable def runPipeline (fetched : List Rfp) (s : PipelineState) : PipelineState :=
  master_agent_consolidateN (pricing_agentN (technical_agentN (master_agent_startN
    (sales_agentN fetched s))))

/-- A rational that is a whole number of hundredths, as every `round2` image
is. -/
def isCent (q : ℚ) : Prop := ∃ n : ℤ, q = (n : ℚ) / 100

theorem isCent_round2 (q : ℚ) : isCent (round2 q) := ⟨round (q * 100), rfl⟩

theorem isCent_zero : isCent 0 := ⟨0, by norm_num⟩

theorem isCent_add {a b : ℚ} (ha : isCent a) (hb : isCent b) : isCent (a + b) := by
  rcases ha with ⟨m, rfl⟩
  rcases hb with ⟨n, rfl⟩
  exact ⟨m + n, by push_cast; ring⟩

theorem round2_of_isCent {q : ℚ} (h : isCent q) : round2 q = q := by
  rcases h with ⟨n, rfl⟩
  unfold round2
  rw [div_mul_cancel₀ _ (by norm_num : (100 : ℚ) ≠ 0), round_intCast]

theorem round_mono_real {x y : ℝ} (h : x ≤ y) : round x ≤ round y := by
  rw [round_eq, round_eq]
  exact Int.floor_le_floor (by linarith)

theorem abs_round2R_sub (x : ℝ) : |round2R x - x| ≤ 1 / 200 := by
  have h := abs_sub_round (x * 100)
  have : round2R x - x = -((x * 100 - (round (x * 100) : ℝ)) / 100) := by
    unfold round2R; ring
  rw [this, abs_neg, abs_div]
  rw [abs_of_pos (by norm_num : (0 : ℝ) < 100)]
  linarith

theorem round2R_mono {x y : ℝ} (h : x ≤ y) : round2R x ≤ round2R y := by
  unfold round2R
  have := round_mono_real (by linarith : x * 100 ≤ y * 100)
  have : ((round (x * 100) : ℤ) : ℝ) ≤ ((round (y * 100) : ℤ) : ℝ) := by exact_mod_cast this
  linarith

theorem round2R_zero : round2R 0 = 0 := by simp [round2R]

theorem round2R_hundred : round2R 100 = 100 := by
  unfold round2R
  norm_num

theorem round2R_mem_Icc {x : ℝ} (h0 : 0 ≤ x) (h1 : x ≤ 100) :
    0 ≤ round2R x ∧ round2R x ≤ 100 := by
  constructor
  · have := round2R_mono h0
    rwa [round2R_zero] at this
  · have := round2R_mono h1
    rwa [round2R_hundred] at this

theorem mem_insertDescBy {α β : Type} [LinearOrder β] (key : α → β) (x a : α)
    (l : List α) : a ∈ insertDescBy key x l ↔ a = x ∨ a ∈ l := by
  induction l with
  | nil => simp [insertDescBy]
  | cons y ys ih =>
    unfold insertDescBy
    by_cases h : key x < key y
    · simp only [if_pos h, List.mem_cons, ih]
      tauto
    · simp only [if_neg h, List.mem_cons]

theorem pairwise_insertDescBy {α β : Type} [LinearOrder β] (key : α → β) (x : α)
    (l : List α) (h : l.Pairwise (fun a b => key b ≤ key a)) :
    (insertDescBy key x l).Pairwise (fun a b => key b ≤ key a) := by
  induction l with
  | nil => simp [insertDescBy]
  | cons y ys ih =>
    rcases List.pairwise_cons.1 h with ⟨hy, hys⟩
    unfold insertDescBy
    by_cases hxy : key x < key y
    · rw [if_pos hxy]
      refine List.pairwise_cons.2 ⟨?_, ih hys⟩
      intro b hb
      rcases (mem_insertDescBy key x b ys).1 hb with rfl | hb
      · exact le_of_lt hxy
      · exact hy b hb
    · rw [if_neg hxy]
      refine List.pairwise_cons.2 ⟨?_, h⟩
      intro b hb
      rcases List.mem_cons.1 hb with rfl | hb
      · exact le_of_not_lt hxy
      · exact le_trans (hy b hb) (le_of_not_lt hxy)

theorem pairwise_sortDescBy {α β : Type} [LinearOrder β] (key : α → β) (l : List α) :
    (sortDescBy key l).Pairwise (fun a b => key b ≤ key a) := by
  induction l with
  | nil => simp [sortDescBy]
  | cons x xs ih => exact pairwise_insertDescBy key x _ ih

theorem mem_sortDescBy {α β : Type} [LinearOrder β] (key : α → β) (a : α)
    (l : List α) : a ∈ sortDescBy key l ↔ a ∈ l := by
  induction l with
  | nil => simp [sortDescBy]
  | cons x xs ih =>
    unfold sortDescBy
    rw [mem_insertDescBy, ih, List.mem_cons]

theorem filter_insertDescBy {α β : Type} [LinearOrder β] (key : α → β) (c : β)
    (x : α) (l : List α) :
    (insertDescBy key x l).filter (fun a => decide (key a = c))
      = if key x = c then x :: l.filter (fun a => decide (key a = c))
        else l.filter (fun a => decide (key a = c)) := by
  induction l with
  | nil =>
    by_cases hxc : key x = c <;> simp [insertDescBy, List.filter_cons, hxc]
  | cons y ys ih =>
    unfold insertDescBy
    by_cases hxy : key x < key y
    · rw [if_pos hxy]
      by_cases hyc : key y = c
      · have hxc : ¬ key x = c := fun hxc => absurd hxy (by rw [hxc, hyc]; exact lt_irrefl c)
        simp [List.filter_cons, hyc, hxc, ih]
      · by_cases hxc : key x = c <;> simp [List.filter_cons, hyc, hxc, ih]
    · rw [if_neg hxy]
      by_cases hxc : key x = c <;> by_cases hyc : key y = c <;>
        simp [List.filter_cons, hxc, hyc]

theorem filter_sortDescBy {α β : Type} [LinearOrder β] (key : α → β) (c : β)
    (l : List α) :
    (sortDescBy key l).filter (fun a => decide (key a = c))
      = l.filter (fun a => decide (key a = c)) := by
  induction l with
  | nil => simp [sortDescBy]
  | cons x xs ih =>
    unfold sortDescBy
    rw [filter_insertDescBy, ih, List.filter_cons]
    by_cases hxc : key x = c <;> simp [hxc]

theorem strLtL_irrefl (a : List Char) : strLtL a a = false := by
  induction a with
  | nil => rfl
  | cons x xs ih => simp [strLtL, ih]

theorem strLtL_trans : ∀ a b c : List Char,
    strLtL a b = true → strLtL b c = true → strLtL a c = true := by
  intro a
  induction a with
  | nil =>
    intro b c h1 h2
    cases b with
    | nil => simp [strLtL] at h1
    | cons y ys =>
      cases c with
      | nil => simp [strLtL] at h2
      | cons z zs => simp [strLtL]
  | cons x xs ih =>
    intro b c h1 h2
    cases b with
    | nil => simp [strLtL] at h1
    | cons y ys =>
      cases c with
      | nil => simp [strLtL] at h2
      | cons z zs =>
        simp only [strLtL, Bool.or_eq_true, Bool.and_eq_true, beq_iff_eq,
          decide_eq_true_eq] at h1 h2 ⊢
        rcases h1 with h1 | ⟨hxy, h1'⟩
        · rcases h2 with h2 | ⟨hyz, h2'⟩
          · exact Or.inl (lt_trans h1 h2)
          · exact Or.inl (hyz ▸ h1)
        · rcases h2 with h2 | ⟨hyz, h2'⟩
          · exact Or.inl (hxy ▸ h2)
          · exact Or.inr ⟨hxy.trans hyz, ih ys zs h1' h2'⟩

theorem strLtL_total : ∀ a b : List Char,
    strLtL a b = true ∨ a = b ∨ strLtL b a = true := by
  intro a
  induction a with
  | nil =>
    intro b
    cases b with
    | nil => exact Or.inr (Or.inl rfl)
    | cons y ys => exact Or.inl (by simp [strLtL])
  | cons x xs ih =>
    intro b
    cases b with
    | nil => exact Or.inr (Or.inr (by simp [strLtL]))
    | cons y ys =>
      rcases lt_trichotomy x y with hv | hv | hv
      · exact Or.inl (by simp [strLtL, hv])
      · rcases ih ys with h | h | h
        · exact Or.inl (by simp [strLtL, hv, h])
        · exact Or.inr (Or.inl (by rw [hv, h]))
        · exact Or.inr (Or.inr (by simp [strLtL, hv, h]))
      · exact Or.inr (Or.inr (by simp [strLtL, hv]))

theorem strLt_irrefl (a : String) : strLt a a = false := strLtL_irrefl a.data

theorem strLt_trans {a b c : String} (h1 : strLt a b = true) (h2 : strLt b c = true) :
    strLt a c = true := strLtL_trans a.data b.data c.data h1 h2

theorem strLt_total (a b : String) : strLt a b = true ∨ a = b ∨ strLt b a = true := by
  rcases strLtL_total a.data b.data with h | h | h
  · exact Or.inl h
  · refine Or.inr (Or.inl ?_)
    cases a; cases b; exact congrArg String.mk h
  · exact Or.inr (Or.inr h)

theorem mem_insertSortedStr (x a : String) (l : List String) :
    a ∈ insertSortedStr x l ↔ a = x ∨ a ∈ l := by
  induction l with
  | nil => simp [insertSortedStr]
  | cons y ys ih =>
    unfold insertSortedStr
    by_cases h1 : strLt x y
    · simp only [if_pos h1, List.mem_cons]
    · rw [if_neg h1]
      by_cases h2 : x == y
      · have hxy : x = y := by simpa using h2
        rw [if_pos h2]
        subst hxy
        simp only [List.mem_cons]
        tauto
      · rw [if_neg h2]
        simp only [List.mem_cons, ih]
        tauto

theorem pairwise_insertSortedStr (x : String) (l : List String)
    (h : l.Pairwise (fun a b => strLt a b = true)) :
    (insertSortedStr x l).Pairwise (fun a b => strLt a b = true) := by
  induction l with
  | nil => simp [insertSortedStr]
  | cons y ys ih =>
    rcases List.pairwise_cons.1 h with ⟨hy, hys⟩
    unfold insertSortedStr
    by_cases h1 : strLt x y
    · rw [if_pos h1]
      refine List.pairwise_cons.2 ⟨?_, h⟩
      intro b hb
      rcases List.mem_cons.1 hb with rfl | hb
      · exact h1
      · exact strLt_trans h1 (hy b hb)
    · rw [if_neg h1]
      by_cases h2 : x == y
      · rw [if_pos h2]; exact h
      · rw [if_neg h2]
        refine List.pairwise_cons.2 ⟨?_, ih hys⟩
        intro b hb
        rcases (mem_insertSortedStr x b ys).1 hb with rfl | hb
        · rcases strLt_total b y with hlt | heq | hgt
          · exact absurd hlt (by simpa using h1)
          · exact absurd (by simp [heq] : (b == y) = true) (by simpa using h2)
          · exact hgt
        · exact hy b hb

theorem pairwise_sortedDedup (l : List String) :
    (sortedDedup l).Pairwise (fun a b => strLt a b = true) := by
  induction l with
  | nil => simp [sortedDedup]
  | cons x xs ih => exact pairwise_insertSortedStr x _ ih

theorem mem_sortedDedup (a : String) (l : List String) :
    a ∈ sortedDedup l ↔ a ∈ l := by
  induction l with
  | nil => simp [sortedDedup]
  | cons x xs ih =>
    show a ∈ insertSortedStr x (sortedDedup xs) ↔ _
    rw [mem_insertSortedStr, ih, List.mem_cons]

theorem nodup_of_pairwise_strLt {l : List String}
    (h : l.Pairwise (fun a b => strLt a b = true)) : l.Nodup := by
  refine h.imp ?_
  intro a b hab
  intro hEq
  subst hEq
  rw [strLt_irrefl a] at hab
  exact Bool.false_ne_true hab

theorem score_technical_match_nil : score_technical_match [] = 0 := by
  simp [score_technical_match]

theorem score_price_nil (db : List Product) (p : ℚ) :
    score_price_competitiveness db p [] = 0 := by
  simp [score_price_competitiveness]

theorem score_delivery_nil (db : List Product) (d : Option ℚ) :
    score_delivery_capability_q db [] d = 0 := by
  simp [score_delivery_capability_q]

theorem score_compliance_nil (db : List Product) : score_compliance_q db [] = 0 := by
  simp [score_compliance_q]

theorem score_risk_nil (db : List Product) (p : ℚ) :
    score_risk_assessment_q db [] p = 0 := by
  simp [score_risk_assessment_q]

theorem finalRaw_nil (db : List Product) (p : ℚ) (d : Option ℚ) :
    finalRaw db [] p d = 0 := by
  unfold finalRaw
  rw [score_technical_match_nil, score_price_nil, score_delivery_nil,
    score_compliance_nil, score_risk_nil]
  push_cast
  ring

/-- C3: for the empty match list, each of the five component scorers returns
0, and `calculate_final_score` returns final score 0.0 with grade
"D (Poor)", all components 0 — an explicit zero result, total by
construction. -/
theorem c3_empty_match_list_zero (db : List Product) (estimatedPrice : ℚ)
    (deadlineDays : Option ℚ) :
    score_technical_match [] = 0
    ∧ score_price_competitiveness db estimatedPrice [] = 0
    ∧ score_delivery_capability_q db [] deadlineDays = 0
    ∧ score_compliance_q db [] = 0
    ∧ score_risk_assessment_q db [] estimatedPrice = 0
    ∧ (calculate_final_score db [] estimatedPrice deadlineDays).finalScore = 0
    ∧ (calculate_final_score db [] estimatedPrice deadlineDays).grade = "D (Poor)"
    ∧ (calculate_final_score db [] estimatedPrice
        deadlineDays).componentScores.technicalMatch = 0
    ∧ (calculate_final_score db [] estimatedPrice
        deadlineDays).componentScores.priceCompetitiveness = 0
    ∧ (calculate_final_score db [] estimatedPrice
        deadlineDays).componentScores.deliveryCapability = 0
    ∧ (calculate_final_score db [] estimatedPrice
        deadlineDays).componentScores.compliance = 0
    ∧ (calculate_final_score db [] estimatedPrice
        deadlineDays).componentScores.riskAssessment = 0 := by
  have hraw := finalRaw_nil db estimatedPrice deadlineDays
  have hgrade : gradeOf 0 = "D (Poor)" := by
    unfold gradeOf
    rw [if_neg (by norm_num), if_neg (by norm_num), if_neg (by norm_num),
      if_neg (by norm_num), if_neg (by norm_num)]
  refine ⟨score_technical_match_nil, score_price_nil db _, score_delivery_nil db _,
    score_compliance_nil db, score_risk_nil db _, ?_, ?_, ?_, ?_, ?_, ?_, ?_⟩ <;>
    simp [calculate_final_score, hraw, hgrade, round2R_zero,
      score_technical_match_nil, score_price_nil, score_delivery_nil,
      score_compliance_nil, score_risk_nil]

/-- C2: on [0,100] the grade ladder of `calculate_final_score` is a strict
partition — each band name is returned exactly on its half-open interval,
with inclusive lower bounds at 85/75/65/55/45 — and the grade the scorer
returns is the ladder applied to the unrounded weighted final score. -/
theorem c2_grade_partition (f : ℝ) (h0 : 0 ≤ f) (h100 : f ≤ 100) :
    ((gradeOf f = "A+ (Excellent)" ↔ 85 ≤ f)
    ∧ (gradeOf f = "A (Very Good)" ↔ 75 ≤ f ∧ f < 85)
    ∧ (gradeOf f = "B+ (Good)" ↔ 65 ≤ f ∧ f < 75)
    ∧ (gradeOf f = "B (Satisfactory)" ↔ 55 ≤ f ∧ f < 65)
    ∧ (gradeOf f = "C (Marginal)" ↔ 45 ≤ f ∧ f < 55)
    ∧ (gradeOf f = "D (Poor)" ↔ f < 45))
    ∧ ∀ (db : List Product) (m : List QMatch) (p : ℚ) (d : Option ℚ),
        (calculate_final_score db m p d).grade = gradeOf (finalRaw db m p d) := by
  refine ⟨?_, fun db m p d => rfl⟩
  unfold gradeOf
  split_ifs with h1 h2 h3 h4 h5
  · exact ⟨iff_of_true rfl h1,
      iff_of_false (by decide) (by rintro ⟨_, h⟩; linarith),
      iff_of_false (by decide) (by rintro ⟨_, h⟩; linarith),
      iff_of_false (by decide) (by rintro ⟨_, h⟩; linarith),
      iff_of_false (by decide) (by rintro ⟨_, h⟩; linarith),
      iff_of_false (by decide) (by intro h; linarith)⟩
  · exact ⟨iff_of_false (by decide) h1,
      iff_of_true rfl ⟨h2, not_le.1 h1⟩,
      iff_of_false (by decide) (by rintro ⟨_, h⟩; linarith),
      iff_of_false (by decide) (by rintro ⟨_, h⟩; linarith),
      iff_of_false (by decide) (by rintro ⟨_, h⟩; linarith),
      iff_of_false (by decide) (by intro h; linarith)⟩
  · exact ⟨iff_of_false (by decide) h1,
      iff_of_false (by decide) (by rintro ⟨h, _⟩; exact h2 h),
      iff_of_true rfl ⟨h3, not_le.1 h2⟩,
      iff_of_false (by decide) (by rintro ⟨_, h⟩; linarith),
      iff_of_false (by decide) (by rintro ⟨_, h⟩; linarith),
      iff_of_false (by decide) (by intro h; linarith)⟩
  · exact ⟨iff_of_false (by decide) h1,
      iff_of_false (by decide) (by rintro ⟨h, _⟩; exact h2 h),
      iff_of_false (by decide) (by rintro ⟨h, _⟩; exact h3 h),
      iff_of_true rfl ⟨h4, not_le.1 h3⟩,
      iff_of_false (by decide) (by rintro ⟨_, h⟩; linarith),
      iff_of_false (by decide) (by intro h; linarith)⟩
  · exact ⟨iff_of_false (by decide) h1,
      iff_of_false (by decide) (by rintro ⟨h, _⟩; exact h2 h),
      iff_of_false (by decide) (by rintro ⟨h, _⟩; exact h3 h),
      iff_of_false (by decide) (by rintro ⟨h, _⟩; exact h4 h),
      iff_of_true rfl ⟨h5, not_le.1 h4⟩,
      iff_of_false (by decide) (by intro h; linarith)⟩
  · exact ⟨iff_of_false (by decide) h1,
      iff_of_false (by decide) (by rintro ⟨h, _⟩; exact h2 h),
      iff_of_false (by decide) (by rintro ⟨h, _⟩; exact h3 h),
      iff_of_false (by decide) (by rintro ⟨h, _⟩; exact h4 h),
      iff_of_false (by decide) (by rintro ⟨h, _⟩; exact h5 h),
      iff_of_true rfl (not_le.1 h5)⟩

/-- C2 witness: the partition at the concrete final score 90. -/
theorem c2_grade_partition_witness :
    (0 : ℝ) ≤ 90 ∧ (90 : ℝ) ≤ 100 ∧ gradeOf 90 = "A+ (Excellent)" :=
  ⟨by norm_num, by norm_num,
    ((c2_grade_partition 90 (by norm_num) (by norm_num)).1.1).2 (by norm_num)⟩

theorem memStr_iff (x : String) (l : List String) : memStr x l = true ↔ x ∈ l := by
  simp [memStr]

theorem mem_foundFinal (c : String) (text : String) (vr : Option String) :
    c ∈ foundFinal text vr ↔
      ((foundAfterDoc text vr).dedup.length = 1 ∧ (c = "RT-01" ∨ c = "IRT-10M"))
      ∨ c ∈ foundAfterDoc text vr := by
  unfold foundFinal
  by_cases h : (foundAfterDoc text vr).dedup.length = 1
  · simp only [h, if_true, List.mem_cons]
    tauto
  · simp [h]

theorem mem_foundAfterDoc (c : String) (text : String) (vr : Option String) :
    c ∈ foundAfterDoc text vr ↔
      (((foundAfterVoltage text vr).any
          (fun d => startsWithL "DOC".data d.data) = false) ∧ c = "DOC-01")
      ∨ c ∈ foundAfterVoltage text vr := by
  unfold foundAfterDoc
  by_cases h : (foundAfterVoltage text vr).any (fun d => startsWithL "DOC".data d.data)
  · simp [h]
  · simp only [h, Bool.false_eq_true, if_false, List.mem_cons]
    tauto

theorem doc_mem_extract (text : String) (vr : Option String) :
    ∃ c ∈ extract_required_tests text vr, startsWithL "DOC".data c.data = true := by
  unfold extract_required_tests
  by_cases h : stripS text == ""
  · rw [if_pos h]
    exact ⟨"DOC-01", by decide, by decide⟩
  · rw [if_neg h]
    by_cases hany : (foundAfterVoltage text vr).any (fun d => startsWithL "DOC".data d.data)
    · rcases List.any_eq_true.1 hany with ⟨d, hd, hpre⟩
      refine ⟨d, ?_, hpre⟩
      rw [mem_sortedDedup, mem_foundFinal, mem_foundAfterDoc]
      exact Or.inr (Or.inr hd)
    · refine ⟨"DOC-01", ?_, by decide⟩
      rw [mem_sortedDedup, mem_foundFinal, mem_foundAfterDoc]
      exact Or.inr (Or.inl ⟨Bool.not_eq_true _ ▸ (by simpa using hany), rfl⟩)

/-- C10 counterexample: for blank input the function returns the fixed
triple in its literal, unsorted order — "RT-01" precedes "IRT-10M" — so the
claim that every returned list is sorted fails at the empty text. -/
theorem c10_blank_unsorted_counterexample :
    extract_required_tests "" none = ["RT-01", "IRT-10M", "DOC-01"]
    ∧ ¬ (extract_required_tests "" none).Pairwise (fun a b => strLt a b = true) := by
  constructor
  · decide
  · intro h
    rw [show extract_required_tests "" none = ["RT-01", "IRT-10M", "DOC-01"] from by decide]
      at h
    have := (List.pairwise_cons.1 h).1 "IRT-10M" (by simp)
    exact absurd this (by decide)

/-- C10 (amended): `extract_required_tests` always returns a deduplicated
list containing a documentation code, with DOC-01 force-included whenever no
DOC-prefixed code survives filtering; for non-blank text the list is sorted
in code-point order, while blank text returns exactly the fixed triple
["RT-01", "IRT-10M", "DOC-01"] in that literal (unsorted) order. -/
theorem c10_extract_tests_amended (text : String) (vr : Option String) :
    (extract_required_tests text vr).Nodup
    ∧ (∃ c ∈ extract_required_tests text vr, startsWithL "DOC".data c.data = true)
    ∧ (stripS text ≠ "" →
        (extract_required_tests text vr).Pairwise (fun a b => strLt a b = true))
    ∧ (stripS text = "" →
        extract_required_tests text vr = ["RT-01", "IRT-10M", "DOC-01"])
    ∧ (stripS text ≠ "" →
        ((foundAfterVoltage text vr).any
          (fun d => startsWithL "DOC".data d.data)) = false →
        "DOC-01" ∈ extract_required_tests text vr) := by
  refine ⟨?_, doc_mem_extract text vr, ?_, ?_, ?_⟩
  · unfold extract_required_tests
    by_cases h : stripS text == ""
    · rw [if_pos h]; decide
    · rw [if_neg h]
      exact nodup_of_pairwise_strLt (pairwise_sortedDedup _)
  · intro h
    unfold extract_required_tests
    rw [if_neg (by simpa using h)]
    exact pairwise_sortedDedup _
  · intro h
    unfold extract_required_tests
    rw [if_pos (by simpa using h)]
  · intro h hdoc
    unfold extract_required_tests
    rw [if_neg (by simpa using h)]
    rw [mem_sortedDedup, mem_foundFinal, mem_foundAfterDoc]
    exact Or.inr (Or.inl ⟨hdoc, rfl⟩)

theorem mem_foundCodes (c : String) (text : String) :
    c ∈ foundCodes text ↔
      ∃ pc ∈ TEST_KEYWORD_MAP, matchPat pc.1 (lowerL text.data) = true ∧ c ∈ pc.2 := by
  unfold foundCodes
  simp [List.mem_flatMap, List.mem_filter]
  tauto

/-- Every keyword pattern that yields one high-voltage-withstand code yields
all three, so the three HVWT codes enter `found_codes` together. -/
theorem hvTogether (text : String) (c c' : String) (hc : c ∈ hvCodes)
    (hc' : c' ∈ hvCodes) (h : c ∈ foundCodes text) : c' ∈ foundCodes text := by
  rw [mem_foundCodes] at h ⊢
  rcases h with ⟨pc, hpc, hmatch, hcin⟩
  refine ⟨pc, hpc, hmatch, ?_⟩
  fin_cases hpc <;> fin_cases hc <;> fin_cases hc' <;>
    first
      | exact hcin
      | (exact absurd hcin (by decide))
      | decide

theorem hv_mem_extract_iff (text : String) (vr : Option String) (c : String)
    (hc : c ∈ hvCodes) (htext : stripS text ≠ "") :
    (c ∈ extract_required_tests text vr ↔ c ∈ foundAfterVoltage text vr) := by
  unfold extract_required_tests
  rw [if_neg (by simpa using htext), mem_sortedDedup, mem_foundFinal, mem_foundAfterDoc]
  constructor
  · rintro (⟨_, rfl | rfl⟩ | ⟨_, rfl⟩ | h)
    · exact absurd hc (by decide)
    · exact absurd hc (by decide)
    · exact absurd hc (by decide)
    · exact h
  · intro h
    exact Or.inr (Or.inr h)

/-- C5 counterexample: with voltage rating "0.6 kV" (non-empty) and a text
whose HV-withstand keyword fires, the returned list keeps TWO
high-voltage-withstand codes, HVWT-1.1KV and HVWT-3.5KV, not the single one
of the product's class. -/
theorem c5_two_hv_codes_counterexample :
    "HVWT-1.1KV" ∈ extract_required_tests "high voltage withstand" (some "0.6 kV")
    ∧ "HVWT-3.5KV" ∈ extract_required_tests "high voltage withstand" (some "0.6 kV")
    ∧ extract_required_tests "high voltage withstand" (some "0.6 kV")
        = ["DOC-01", "HVWT-1.1KV", "HVWT-3.5KV"] := by
  exact ⟨by decide, by decide, by decide⟩

/-- C5 (amended): when HVWT codes are found and the voltage rating is
non-empty, the filter keeps only HVWT-11KV for a rating containing "11kv",
only HVWT-1.1KV for one containing "1.1kv" or "1.1", removes only HVWT-11KV
(keeping both HVWT-1.1KV and HVWT-3.5KV) for the 0.6kV/415V/0.4kV class, and
keeps all three codes when the rating matches none of the classes. -/
theorem c5_hv_filter_amended (text : String) (vr : String) (hvr : vr ≠ "")
    (htext : stripS text ≠ "") (hfound : "HVWT-11KV" ∈ foundCodes text) :
    ((containsS ⟨(lowerL vr.data).filter (fun ch => !(ch == ' '))⟩ "11kv" = true →
      ("HVWT-11KV" ∈ extract_required_tests text (some vr)
        ∧ "HVWT-1.1KV" ∉ extract_required_tests text (some vr)
        ∧ "HVWT-3.5KV" ∉ extract_required_tests text (some vr)))
    ∧ (containsS ⟨(lowerL vr.data).filter (fun ch => !(ch == ' '))⟩ "11kv" = false →
       (containsS ⟨(lowerL vr.data).filter (fun ch => !(ch == ' '))⟩ "1.1kv"
         || containsS ⟨(lowerL vr.data).filter (fun ch => !(ch == ' '))⟩ "1.1") = true →
      ("HVWT-1.1KV" ∈ extract_required_tests text (some vr)
        ∧ "HVWT-11KV" ∉ extract_required_tests text (some vr)
        ∧ "HVWT-3.5KV" ∉ extract_required_tests text (some vr)))
    ∧ (containsS ⟨(lowerL vr.data).filter (fun ch => !(ch == ' '))⟩ "11kv" = false →
       (containsS ⟨(lowerL vr.data).filter (fun ch => !(ch == ' '))⟩ "1.1kv"
         || containsS ⟨(lowerL vr.data).filter (fun ch => !(ch == ' '))⟩ "1.1") = false →
       (containsS ⟨(lowerL vr.data).filter (fun ch => !(ch == ' '))⟩ "0.6kv"
         || containsS ⟨(lowerL vr.data).filter (fun ch => !(ch == ' '))⟩ "415v"
         || containsS ⟨(lowerL vr.data).filter (fun ch => !(ch == ' '))⟩ "0.4kv") = true →
      ("HVWT-1.1KV" ∈ extract_required_tests text (some vr)
        ∧ "HVWT-3.5KV" ∈ extract_required_tests text (some vr)
        ∧ "HVWT-11KV" ∉ extract_required_tests text (some vr)))
    ∧ (containsS ⟨(lowerL vr.data).filter (fun ch => !(ch == ' '))⟩ "11kv" = false →
       (containsS ⟨(lowerL vr.data).filter (fun ch => !(ch == ' '))⟩ "1.1kv"
         || containsS ⟨(lowerL vr.data).filter (fun ch => !(ch == ' '))⟩ "1.1") = false →
       (containsS ⟨(lowerL vr.data).filter (fun ch => !(ch == ' '))⟩ "0.6kv"
         || containsS ⟨(lowerL vr.data).filter (fun ch => !(ch == ' '))⟩ "415v"
         || containsS ⟨(lowerL vr.data).filter (fun ch => !(ch == ' '))⟩ "0.4kv") = false →
      ("HVWT-11KV" ∈ extract_required_tests text (some vr)
        ∧ "HVWT-1.1KV" ∈ extract_required_tests text (some vr)
        ∧ "HVWT-3.5KV" ∈ extract_required_tests text (some vr)))) := by
  have h11 := hfound
  have h1p1 : "HVWT-1.1KV" ∈ foundCodes text :=
    hvTogether text "HVWT-11KV" "HVWT-1.1KV" (by decide) (by decide) hfound
  have h3p5 : "HVWT-3.5KV" ∈ foundCodes text :=
    hvTogether text "HVWT-11KV" "HVWT-3.5KV" (by decide) (by decide) hfound
  have hvF : (hvCodes.any (fun c => memStr c (foundCodes text))) = true :=
    List.any_eq_true.2 ⟨"HVWT-11KV", by decide, (memStr_iff _ _).2 hfound⟩
  have hAV : ∀ c, c ∈ hvCodes →
      (c ∈ extract_required_tests text (some vr) ↔ c ∈ foundAfterVoltage text (some vr)) :=
    fun c hc => hv_mem_extract_iff text (some vr) c hc htext
  have hvrB : (vr == "") = false := by simpa using hvr
  refine ⟨?_, ?_, ?_, ?_⟩
  · intro hc1
    rw [hAV _ (by decide), hAV _ (by decide), hAV _ (by decide)]
    simp only [foundAfterVoltage]
    rw [hvrB]
    simp only [Bool.false_eq_true, if_false, hvF, if_true, hc1, List.mem_filter]
    refine ⟨⟨h11, by decide⟩, ?_, ?_⟩
    · rintro ⟨-, h⟩; exact absurd h (by decide)
    · rintro ⟨-, h⟩; exact absurd h (by decide)
  · intro hc1 hc2
    rw [hAV _ (by decide), hAV _ (by decide), hAV _ (by decide)]
    simp only [foundAfterVoltage]
    rw [hvrB]
    simp only [Bool.false_eq_true, if_false, hvF, if_true, hc1, hc2, List.mem_filter]
    refine ⟨⟨h1p1, by decide⟩, ?_, ?_⟩
    · rintro ⟨-, h⟩; exact absurd h (by decide)
    · rintro ⟨-, h⟩; exact absurd h (by decide)
  · intro hc1 hc2 hc3
    rw [hAV _ (by decide), hAV _ (by decide), hAV _ (by decide)]
    simp only [foundAfterVoltage]
    rw [hvrB]
    simp only [Bool.false_eq_true, if_false, hvF, if_true, hc1, hc2, hc3, List.mem_filter]
    refine ⟨⟨h1p1, by decide⟩, ⟨h3p5, by decide⟩, ?_⟩
    rintro ⟨-, h⟩; exact absurd h (by decide)
  · intro hc1 hc2 hc3
    rw [hAV _ (by decide), hAV _ (by decide), hAV _ (by decide)]
    simp only [foundAfterVoltage]
    rw [hvrB]
    simp only [Bool.false_eq_true, if_false, hvF, if_true, hc1, hc2, hc3]
    exact ⟨h11, h1p1, h3p5⟩

/-- C5 witness: the concrete text "high voltage withstand" with product
voltage "11 kV" keeps exactly HVWT-11KV. -/
theorem c5_hv_filter_witness :
    "HVWT-11KV" ∈ extract_required_tests "high voltage withstand" (some "11 kV")
    ∧ "HVWT-1.1KV" ∉ extract_required_tests "high voltage withstand" (some "11 kV")
    ∧ "HVWT-3.5KV" ∉ extract_required_tests "high voltage withstand" (some "11 kV") :=
  (c5_hv_filter_amended "high voltage withstand" "11 kV" (by decide) (by decide)
    (by decide)).1 (by decide)

theorem start_preserves_lineItemMatches (t : PipelineState) :
    (master_agent_startN t).lineItemMatches = t.lineItemMatches := by
  unfold master_agent_startN
  cases t.rfps <;> rfl

theorem pricing_preserves_lineItemMatches (t : PipelineState) :
    (pricing_agentN t).lineItemMatches = t.lineItemMatches := by
  unfold pricing_agentN
  by_cases h : (t.lineItemMatches.getD []).isEmpty <;> simp [h]

theorem consolidate_preserves_lineItemMatches (t : PipelineState) :
    (master_agent_consolidateN t).lineItemMatches = t.lineItemMatches := by
  unfold master_agent_consolidateN
  cases t.selectedRfp <;> rfl

theorem consolidate_preserves_consolidatedPricing (t : PipelineState) :
    (master_agent_consolidateN t).consolidatedPricing = t.consolidatedPricing := by
  unfold master_agent_consolidateN
  cases t.selectedRfp <;> rfl

theorem consolidate_preserves_prices (t : PipelineState) :
    (master_agent_consolidateN t).prices = t.prices := by
  unfold master_agent_consolidateN
  cases t.selectedRfp <;> rfl

theorem pricing_empty_branch (t : PipelineState) (h : t.lineItemMatches = none) :
    (pricing_agentN t).consolidatedPricing = some emptyConsolidatedPricing
    ∧ (pricing_agentN t).prices = some [] := by
  unfold pricing_agentN
  rw [h]
  exact ⟨rfl, rfl⟩

theorem consolidate_empty_lineItems (t : PipelineState) (h : t.lineItemMatches = none) :
    ∀ fr, (master_agent_consolidateN t).finalResponse = some fr → fr.lineItems = [] := by
  unfold master_agent_consolidateN
  cases hsel : t.selectedRfp with
  | none =>
    intro fr hfr
    simp at hfr
  | some rfp =>
    intro fr hfr
    simp only [Option.some.injEq] at hfr
    rw [← hfr]
    simp [h]

/-- C4: no node of the compiled pipeline writes the state key
`line_item_matches` (the technical agent writes `tech_matches` instead), so
on every run starting without that key the pricing agent takes its empty
branch — `consolidated_pricing` is the all-zero record with an empty
`line_item_pricing` — and the consolidated final response, when one is
built, has an empty `line_items` list. -/
theorem c4_line_item_matches_never_written (fetched : List Rfp) (s : PipelineState)
    (h : s.lineItemMatches = none) :
    (∀ t, (sales_agentN fetched t).lineItemMatches = t.lineItemMatches)
    ∧ (∀ t, (master_agent_startN t).lineItemMatches = t.lineItemMatches)
    ∧ (∀ t, (technical_agentN t).lineItemMatches = t.lineItemMatches)
    ∧ (∀ t, (pricing_agentN t).lineItemMatches = t.lineItemMatches)
    ∧ (∀ t, (master_agent_consolidateN t).lineItemMatches = t.lineItemMatches)
    ∧ (technical_agentN (master_agent_startN (sales_agentN fetched s))).techMatches.isSome
        = true
    ∧ (runPipeline fetched s).lineItemMatches = none
    ∧ (runPipeline fetched s).consolidatedPricing = some emptyConsolidatedPricing
    ∧ (runPipeline fetched s).prices = some []
    ∧ (∀ fr, (runPipeline fetched s).finalResponse = some fr → fr.lineItems = []) := by
  have h3 : (technical_agentN (master_agent_startN (sales_agentN fetched s))).lineItemMatches
      = none := by
    show (master_agent_startN (sales_agentN fetched s)).lineItemMatches = none
    rw [start_preserves_lineItemMatches]
    exact h
  have h4 : (pricing_agentN (technical_agentN (master_agent_startN
      (sales_agentN fetched s)))).lineItemMatches = none := by
    rw [pricing_preserves_lineItemMatches]
    exact h3
  refine ⟨fun t => rfl, start_preserves_lineItemMatches, fun t => rfl,
    pricing_preserves_lineItemMatches, consolidate_preserves_lineItemMatches,
    rfl, ?_, ?_, ?_, ?_⟩
  · show (master_agent_consolidateN _).lineItemMatches = none
    rw [consolidate_preserves_lineItemMatches]
    exact h4
  · show (master_agent_consolidateN _).consolidatedPricing = _
    rw [consolidate_preserves_consolidatedPricing]
    exact (pricing_empty_branch _ h3).1
  · show (master_agent_consolidateN _).prices = _
    rw [consolidate_preserves_prices]
    exact (pricing_empty_branch _ h3).2
  · exact consolidate_empty_lineItems _ h4

/-- C4 witness: the pipeline run from the empty initial state. -/
theorem c4_line_item_matches_witness :
    (runPipeline [] ⟨[], none, [], none, none, none, none, none, none, none, none,
      none⟩).consolidatedPricing = some emptyConsolidatedPricing
    ∧ (runPipeline [] ⟨[], none, [], none, none, none, none, none, none, none, none,
      none⟩).lineItemMatches = none :=
  ⟨(c4_line_item_matches_never_written []
      ⟨[], none, [], none, none, none, none, none, none, none, none, none⟩
      rfl).2.2.2.2.2.2.2.1,
   (c4_line_item_matches_never_written []
      ⟨[], none, [], none, none, none, none, none, none, none, none, none⟩
      rfl).2.2.2.2.2.2.1⟩

theorem priceItems_rows (tt : String) (pd : List Product)
    (td : Option (List TestService)) :
    ∀ items : List ItemResult,
      (priceItems tt pd td items).1 = items.map (priceLineItem tt pd td) := by
  intro items
  induction items with
  | nil => rfl
  | cons item rest ih =>
    unfold priceItems
    cases item.selectedSku <;> simp [ih]

theorem priceLineItem_noSku (tt : String) (pd : List Product)
    (td : Option (List TestService)) (item : ItemResult)
    (h : item.selectedSku = none) :
    (priceLineItem tt pd td item).materialCostInr = 0
    ∧ (priceLineItem tt pd td item).testCostInr = 0 := by
  unfold priceLineItem
  rw [h]
  exact ⟨rfl, rfl⟩

theorem priceLineItem_formulas (tt : String) (pd : List Product)
    (td : Option (List TestService)) (item : ItemResult) :
    (priceLineItem tt pd td item).sku.isSome = true →
      (priceLineItem tt pd td item).materialCostInr
        = round2 ((priceLineItem tt pd td item).unitPriceInr
            * ((priceLineItem tt pd td item).moqMeters : ℚ))
      ∧ (priceLineItem tt pd td item).testCostInr
        = round2 (((priceLineItem tt pd td item).applicableTests.map
            (fun t => t.priceInr)).sum)
      ∧ (priceLineItem tt pd td item).lineTotalInr
        = round2 ((priceLineItem tt pd td item).materialCostInr
            + (priceLineItem tt pd td item).testCostInr) := by
  cases hsku : item.selectedSku with
  | none =>
    intro hIsSome
    unfold priceLineItem at hIsSome
    rw [hsku] at hIsSome
    simp at hIsSome
  | some sku =>
    intro _
    unfold priceLineItem
    rw [hsku]
    exact ⟨rfl, rfl, rfl⟩

theorem priceItems_totals (tt : String) (pd : List Product)
    (td : Option (List TestService)) :
    ∀ items : List ItemResult,
      (priceItems tt pd td items).2.1
        = (((priceItems tt pd td items).1.map (fun r => r.materialCostInr)).sum)
      ∧ (priceItems tt pd td items).2.2
        = (((priceItems tt pd td items).1.map (fun r => r.testCostInr)).sum)
      ∧ isCent (priceItems tt pd td items).2.1
      ∧ isCent (priceItems tt pd td items).2.2 := by
  intro items
  induction items with
  | nil => exact ⟨rfl, rfl, isCent_zero, isCent_zero⟩
  | cons item rest ih =>
    rcases ih with ⟨ihm, iht, ihcm, ihct⟩
    unfold priceItems
    cases hsku : item.selectedSku with
    | none =>
      rcases priceLineItem_noSku tt pd td item hsku with ⟨hm0, ht0⟩
      simp only [hsku, List.map_cons, List.sum_cons, hm0, ht0, zero_add]
      exact ⟨ihm, iht, ihcm, ihct⟩
    | some sku =>
      simp only [hsku, List.map_cons, List.sum_cons]
      refine ⟨by rw [ihm], by rw [iht], ?_, ?_⟩
      · have : (priceLineItem tt pd td item).materialCostInr
            = round2 ((priceLineItem tt pd td item).unitPriceInr
                * ((priceLineItem tt pd td item).moqMeters : ℚ)) :=
          (priceLineItem_formulas tt pd td item (by
            unfold priceLineItem; rw [hsku]; rfl)).1
        exact isCent_add (this ▸ isCent_round2 _) ihcm
      · have : (priceLineItem tt pd td item).testCostInr
            = round2 (((priceLineItem tt pd td item).applicableTests.map
                (fun t => t.priceInr)).sum) :=
          (priceLineItem_formulas tt pd td item (by
            unfold priceLineItem; rw [hsku]; rfl)).2.1
        exact isCent_add (this ▸ isCent_round2 _) ihct

/-- C6: every priced row with a selected SKU satisfies
material = round2(unit x MOQ), test = round2(sum of test prices) and
line total = round2(material + test); the three aggregate totals are the
sums of the per-row costs, with grand total equal to material plus test
totals exactly; and the consolidator copies the three totals into the final
summary unchanged. -/
theorem c6_pricing_row_and_total_laws (tt : String) (items : List ItemResult)
    (pd : List Product) (td : Option (List TestService)) :
    (∀ row ∈ (pricing_core tt items pd td).lineItemPricing, row.sku.isSome = true →
        row.materialCostInr = round2 (row.unitPriceInr * (row.moqMeters : ℚ))
        ∧ row.testCostInr = round2 ((row.applicableTests.map (fun t => t.priceInr)).sum)
        ∧ row.lineTotalInr = round2 (row.materialCostInr + row.testCostInr))
    ∧ (pricing_core tt items pd td).totalMaterialCost
        = (((pricing_core tt items pd td).lineItemPricing.map
            (fun r => r.materialCostInr)).sum)
    ∧ (pricing_core tt items pd td).totalTestCost
        = (((pricing_core tt items pd td).lineItemPricing.map
            (fun r => r.testCostInr)).sum)
    ∧ (pricing_core tt items pd td).grandTotal
        = (pricing_core tt items pd td).totalMaterialCost
          + (pricing_core tt items pd td).totalTestCost
    ∧ (∀ t : PipelineState, ∀ rfp : Rfp, t.selectedRfp = some rfp →
        t.consolidatedPricing = some (pricing_core tt items pd td) →
        ∀ fr, (master_agent_consolidateN t).finalResponse = some fr →
          fr.summary.totalMaterialCostInr = (pricing_core tt items pd td).totalMaterialCost
          ∧ fr.summary.totalTestCostInr = (pricing_core tt items pd td).totalTestCost
          ∧ fr.summary.grandTotalInr = (pricing_core tt items pd td).grandTotal) := by
  rcases priceItems_totals tt pd td items with ⟨hm, ht, hcm, hct⟩
  have hrows : (pricing_core tt items pd td).lineItemPricing
      = items.map (priceLineItem tt pd td) := priceItems_rows tt pd td items
  refine ⟨?_, ?_, ?_, ?_, ?_⟩
  · intro row hrow
    rw [hrows, List.mem_map] at hrow
    rcases hrow with ⟨item, _, rfl⟩
    exact priceLineItem_formulas tt pd td item
  · show round2 (priceItems tt pd td items).2.1 = _
    rw [round2_of_isCent hcm, hm]
    rfl
  · show round2 (priceItems tt pd td items).2.2 = _
    rw [round2_of_isCent hct, ht]
    rfl
  · show round2 ((priceItems tt pd td items).2.1 + (priceItems tt pd td items).2.2)
      = round2 (priceItems tt pd td items).2.1 + round2 (priceItems tt pd td items).2.2
    rw [round2_of_isCent (isCent_add hcm hct), round2_of_isCent hcm, round2_of_isCent hct]
  · intro t rfp hsel hcp fr hfr
    unfold master_agent_consolidateN at hfr
    rw [hsel] at hfr
    simp only [Option.some.injEq] at hfr
    rw [← hfr]
    simp [hcp]

theorem techPct_of_all_six (text : String) (row : Product)
    (h : techMatchedCount text row = 6) : techPct text row = 100 := by
  unfold techPct
  rw [h]
  norm_num [round2]

theorem techEntry_none_of_zero (text : String) (row : Product)
    (h : techMatchedCount text row = 0) : techEntry text row = none := by
  unfold techEntry techPct
  rw [h]
  norm_num [round2]

/-- C7: the technical agent's per-RFP result holds at most 5 entries, sorted
by spec percentage descending with ties kept in catalog order (the stable
sort leaves each equal-percentage band exactly as the catalog produced it);
every entry comes from a catalog row and carries
round2(matched/6 x 100) as its percentage; a row matching all six fields
scores exactly 100; a row matching none contributes no entry. -/
theorem c7_technical_match_contract (db : List Product) (rfp : Rfp) :
    (technical_matches_for db rfp).length ≤ 5
    ∧ (technical_matches_for db rfp).Pairwise
        (fun a b => b.specMatchPercent ≤ a.specMatchPercent)
    ∧ (∀ m ∈ technical_matches_for db rfp, ∃ row ∈ db,
        m = ⟨row.productId, row.productName, techPct (techText rfp) row, row.category⟩
        ∧ 0 < techPct (techText rfp) row)
    ∧ (∀ row, techPct (techText rfp) row
        = round2 ((techMatchedCount (techText rfp) row : ℚ) / 6 * 100))
    ∧ (∀ row ∈ db, techMatchedCount (techText rfp) row = 6 →
        techPct (techText rfp) row = 100)
    ∧ (∀ row ∈ db, techMatchedCount (techText rfp) row = 0 →
        techEntry (techText rfp) row = none)
    ∧ (∀ c : ℚ,
        ((sortDescBy (fun (m : TMatch) => m.specMatchPercent)
            (db.filterMap (techEntry (techText rfp)))).filter
          (fun m => decide (m.specMatchPercent = c)))
        = ((db.filterMap (techEntry (techText rfp))).filter
          (fun m => decide (m.specMatchPercent = c)))) := by
  refine ⟨?_, ?_, ?_, fun row => rfl, fun row _ => techPct_of_all_six _ row,
    fun row _ => techEntry_none_of_zero _ row,
    fun c => filter_sortDescBy (fun (m : TMatch) => m.specMatchPercent) c _⟩
  · unfold technical_matches_for
    rw [List.length_take]
    exact min_le_left 5 _
  · show ((sortDescBy (fun (m : TMatch) => m.specMatchPercent)
        (db.filterMap (techEntry (techText rfp)))).take 5).Pairwise
        (fun a b => b.specMatchPercent ≤ a.specMatchPercent)
    exact (pairwise_sortDescBy (fun (m : TMatch) => m.specMatchPercent) _).take
  · intro m hm
    have hm' : m ∈ sortDescBy (fun (m : TMatch) => m.specMatchPercent)
        ((db.filterMap (techEntry (techText rfp)))) :=
      List.mem_of_mem_take hm
    rw [mem_sortDescBy] at hm'
    rcases List.mem_filterMap.1 hm' with ⟨row, hrow, hent⟩
    unfold techEntry at hent
    by_cases hpos : 0 < techPct (techText rfp) row
    · rw [if_pos hpos] at hent
      exact ⟨row, hrow, (Option.some_inj.1 hent).symm, hpos⟩
    · rw [if_neg hpos] at hent
      exact absurd hent (by simp)

theorem quickDims_total_le_three (text : List Char) (rv : Option (List Char))
    (row : Product) : (quickDims text rv row).2 ≤ 3 := by
  unfold quickDims
  cases rv <;> dsimp only <;> split_ifs <;> simp

theorem quickEntry_none_of_total_zero (text : List Char) (rv : Option (List Char))
    (row : Product) (h : (quickDims text rv row).2 = 0) :
    quickEntry text rv row = none := by
  unfold quickEntry
  rw [if_pos h]

theorem quickEntry_no_signal (text : List Char) (row : Product)
    (hc1 : quickHas text ["copper", "cu "] = false)
    (hc2 : quickHas text ["aluminium", "aluminum", "al "] = false)
    (hi1 : quickHas text ["xlpe", "cross linked"] = false)
    (hi2 : quickHas text ["pvc"] = false) :
    quickEntry text none row = none := by
  apply quickEntry_none_of_total_zero
  unfold quickDims
  rw [hc1, hc2, hi1, hi2]
  rfl

/-- C8 counterexample: on the text "copper cable 11kv xlpe", a catalog
product with voltage 33kV, copper conductor and PVC insulation has 1 of 3
evaluable dimensions and is reported with spec_match_percent 33.33, which is
not (1 / 3) x 100 — the code rounds to 2 decimals, the claim's exact
equality fails. -/
theorem c8_percentage_rounding_counterexample :
    _quick_match_rfp
      (⟨"", "", "", "", none, "", "copper cable 11kv xlpe", "", "", "", "", "", ""⟩ : Rfp)
      [(⟨"P1", "Prod", "Cat", "33kV", "Copper", "PVC", "4", "No", "IS 7098", "Yes",
          100, 500, 30, 2⟩ : Product)]
      = [⟨"P1", 3333 / 100, "Cat", "Yes"⟩]
    ∧ ((3333 : ℚ) / 100) ≠ ((1 : ℚ) / 3) * 100 := by
  constructor
  · have hdims : quickDims
        (combinedTextOf ⟨"", "", "", "", none, "", "copper cable 11kv xlpe", "", "", "",
          "", "", ""⟩)
        (rfpVoltageOf ⟨"", "", "", "", none, "", "copper cable 11kv xlpe", "", "", "",
          "", "", ""⟩)
        ⟨"P1", "Prod", "Cat", "33kV", "Copper", "PVC", "4", "No", "IS 7098", "Yes",
          100, 500, 30, 2⟩ = (1, 3) := by decide
    have hpct : round2 (((1 : ℕ) : ℚ) / ((3 : ℕ) : ℚ) * 100) = 3333 / 100 := by
      unfold round2
      rw [show ((1 : ℕ) : ℚ) / ((3 : ℕ) : ℚ) * 100 * 100 = 10000 / 3 by push_cast; ring,
        round_eq]
      norm_num
    have hentry : quickEntry
        (combinedTextOf ⟨"", "", "", "", none, "", "copper cable 11kv xlpe", "", "", "",
          "", "", ""⟩)
        (rfpVoltageOf ⟨"", "", "", "", none, "", "copper cable 11kv xlpe", "", "", "",
          "", "", ""⟩)
        ⟨"P1", "Prod", "Cat", "33kV", "Copper", "PVC", "4", "No", "IS 7098", "Yes",
          100, 500, 30, 2⟩ = some ⟨"P1", 3333 / 100, "Cat", "Yes"⟩ := by
      unfold quickEntry
      rw [hdims]
      rw [if_neg (by norm_num)]
      simp only [hpct]
      rw [if_pos (by norm_num)]
    unfold _quick_match_rfp
    rw [List.filterMap_cons, hentry]
    rfl
  · intro h
    have : (3333 : ℚ) * 3 = 10000 := by
      have h2 : ((3333 : ℚ) / 100) * 300 = ((1 : ℚ) / 3 * 100) * 300 := by rw [h]
      field_simp at h2
      linarith
    norm_num at this

/-- C8 (amended): `_quick_match_rfp` returns at most 10 matches sorted by
percentage descending; each entry's percentage is (matched evaluable
dimensions) / (evaluable dimensions) x 100 ROUNDED TO 2 DECIMALS over at
most three dimensions; a product with zero evaluable dimensions is skipped;
and with no voltage token and no conductor or insulation keyword the result
is the empty list, not an exception. -/
theorem c8_quick_match_contract (rfp : Rfp) (db : List Product) :
    (_quick_match_rfp rfp db).length ≤ 10
    ∧ (_quick_match_rfp rfp db).Pairwise
        (fun a b => b.specMatchPercent ≤ a.specMatchPercent)
    ∧ (∀ m ∈ _quick_match_rfp rfp db, ∃ row ∈ db,
        m = ⟨row.productId,
          round2 (((quickDims (combinedTextOf rfp) (rfpVoltageOf rfp) row).1 : ℚ)
            / ((quickDims (combinedTextOf rfp) (rfpVoltageOf rfp) row).2 : ℚ) * 100),
          row.category, row.bisCertified⟩
        ∧ 0 < m.specMatchPercent
        ∧ (quickDims (combinedTextOf rfp) (rfpVoltageOf rfp) row).2 ≠ 0)
    ∧ (∀ row, (quickDims (combinedTextOf rfp) (rfpVoltageOf rfp) row).2 ≤ 3)
    ∧ (∀ row, (quickDims (combinedTextOf rfp) (rfpVoltageOf rfp) row).2 = 0 →
        quickEntry (combinedTextOf rfp) (rfpVoltageOf rfp) row = none)
    ∧ (findVoltage (combinedTextOf rfp) = none →
        quickHas (combinedTextOf rfp) ["copper", "cu "] = false →
        quickHas (combinedTextOf rfp) ["aluminium", "aluminum", "al "] = false →
        quickHas (combinedTextOf rfp) ["xlpe", "cross linked"] = false →
        quickHas (combinedTextOf rfp) ["pvc"] = false →
        _quick_match_rfp rfp db = []) := by
  refine ⟨?_, ?_, ?_, fun row => quickDims_total_le_three _ _ row,
    fun row => quickEntry_none_of_total_zero _ _ row, ?_⟩
  · unfold _quick_match_rfp
    rw [List.length_take]
    exact min_le_left 10 _
  · show ((sortDescBy (fun (m : QMatch) => m.specMatchPercent)
        (db.filterMap (quickEntry (combinedTextOf rfp) (rfpVoltageOf rfp)))).take
          10).Pairwise (fun a b => b.specMatchPercent ≤ a.specMatchPercent)
    exact (pairwise_sortDescBy (fun (m : QMatch) => m.specMatchPercent) _).take
  · intro m hm
    have hm' : m ∈ sortDescBy (fun (m : QMatch) => m.specMatchPercent)
        ((db.filterMap (quickEntry (combinedTextOf rfp) (rfpVoltageOf rfp)))) :=
      List.mem_of_mem_take hm
    rw [mem_sortDescBy] at hm'
    rcases List.mem_filterMap.1 hm' with ⟨row, hrow, hent⟩
    unfold quickEntry at hent
    by_cases hz : (quickDims (combinedTextOf rfp) (rfpVoltageOf rfp) row).2 = 0
    · rw [if_pos hz] at hent
      exact absurd hent (by simp)
    · rw [if_neg hz] at hent
      by_cases hpos : 0 < round2
          (((quickDims (combinedTextOf rfp) (rfpVoltageOf rfp) row).1 : ℚ)
            / ((quickDims (combinedTextOf rfp) (rfpVoltageOf rfp) row).2 : ℚ) * 100)
      · rw [if_pos hpos] at hent
        refine ⟨row, hrow, (Option.some_inj.1 hent).symm, ?_, hz⟩
        rw [← (Option.some_inj.1 hent)]
        exact hpos
      · rw [if_neg hpos] at hent
        exact absurd hent (by simp)
  · intro hv hc1 hc2 hi1 hi2
    unfold _quick_match_rfp
    have hrv : rfpVoltageOf rfp = none := by
      unfold rfpVoltageOf
      rw [hv]
      rfl
    rw [hrv]
    rw [List.filterMap_eq_nil_iff.2 (fun row _ => quickEntry_no_signal _ row hc1 hc2 hi1 hi2)]
    rfl

/-- C9: for a non-empty match list whose percentages are all positive,
`score_technical_match` equals the exp(-0.3 i)-weighted mean of the first
five percentages times the good-match multiplier
min(1 + 0.05 x (count of matches at or above 70 percent - 1), 1.15),
capped at 100. -/
theorem c9_technical_match_formula (matchList : List QMatch)
    (hne : matchList ≠ [])
    (hpos : ∀ m ∈ matchList, 0 < m.specMatchPercent) :
    score_technical_match matchList
      = min
          (((((matchList.take 5).enum.map
              (fun p => (p.2.specMatchPercent : ℝ) * Real.exp (-0.3 * (p.1 : ℝ)))).sum)
            / (((matchList.take 5).enum.map
              (fun p => Real.exp (-0.3 * (p.1 : ℝ)))).sum))
          * min (1 + (((matchList.filter
              (fun m => 70 ≤ m.specMatchPercent)).length : ℝ) - 1) * 0.05) 1.15)
          100 := by
  unfold score_technical_match
  have hval : matchList.filter (fun m => decide (0 < m.specMatchPercent)) = matchList :=
    List.filter_eq_self.2 (fun m hm => by simpa using hpos m hm)
  rw [hval, if_neg hne]
  have htw : 0 < (((matchList.take 5).enum.map
      (fun p => Real.exp (-0.3 * (p.1 : ℝ)))).sum) := by
    apply List.sum_pos
    · intro x hx
      rcases List.mem_map.1 hx with ⟨p, _, rfl⟩
      exact Real.exp_pos _
    · simp only [ne_eq, List.map_eq_nil_iff, List.enum_eq_nil, List.take_eq_nil_iff]
      push_neg
      exact ⟨by norm_num, hne⟩
  dsimp only
  rw [if_pos htw]

theorem score_technical_match_bounds (matchList : List QMatch) :
    0 ≤ score_technical_match matchList ∧ score_technical_match matchList ≤ 100 := by
  unfold score_technical_match
  by_cases hval : matchList.filter (fun m => decide (0 < m.specMatchPercent)) = []
  · rw [hval, if_pos rfl]
    norm_num
  · rw [if_neg hval]
    dsimp only
    constructor
    · apply le_min _ (by norm_num)
      apply mul_nonneg
      · split_ifs with hw
        · apply div_nonneg _ (le_of_lt hw)
          apply List.sum_nonneg
          intro x hx
          rcases List.mem_map.1 hx with ⟨p, hp, rfl⟩
          apply mul_nonneg _ (le_of_lt (Real.exp_pos _))
          have hmem : p.2 ∈ (matchList.filter
              (fun m => decide (0 < m.specMatchPercent))).take 5 := by
            have := List.mem_enum_iff_getElem?.1 hp
            exact List.getElem?_mem this
          have hmem2 := List.mem_of_mem_take hmem
          have := List.of_mem_filter hmem2
          have hppos : 0 < p.2.specMatchPercent := by simpa using this
          exact_mod_cast le_of_lt hppos
        · exact le_refl 0
      · apply le_min _ (by norm_num)
        have : (0 : ℝ) ≤ (((matchList.filter
            (fun m => decide (70 ≤ m.specMatchPercent))).length : ℝ)) :=
          Nat.cast_nonneg _
        nlinarith
    · exact min_le_right _ _

theorem score_price_bounds (db : List Product) (p : ℚ) (matchList : List QMatch) :
    0 ≤ score_price_competitiveness db p matchList
    ∧ score_price_competitiveness db p matchList ≤ 100 := by
  unfold score_price_competitiveness
  split_ifs
  · norm_num
  · exact ⟨le_max_left _ _, max_le (by norm_num) (min_le_right _ _)⟩

theorem score_delivery_bounds (db : List Product) (matchList : List QMatch)
    (d : Option ℚ) :
    0 ≤ score_delivery_capability_q db matchList d
    ∧ score_delivery_capability_q db matchList d ≤ 100 := by
  unfold score_delivery_capability_q
  split_ifs
  · norm_num
  · exact ⟨le_max_left _ _, max_le (by norm_num) (min_le_right _ _)⟩

theorem score_compliance_bounds (db : List Product) (matchList : List QMatch)
    (hw : ∀ p ∈ db, 0 ≤ p.warrantyYears) :
    0 ≤ score_compliance_q db matchList ∧ score_compliance_q db matchList ≤ 100 := by
  unfold score_compliance_q
  by_cases h1 : matchList = []
  · rw [if_pos h1]
    norm_num
  · rw [if_neg h1]
    dsimp only
    by_cases h2 : (matchList.filterMap (fun m => findProduct db m.productId)).length = 0
    · rw [if_pos h2]
      norm_num
    · rw [if_neg h2]
      refine ⟨le_min ?_ (by norm_num), min_le_right _ _⟩
      have htot : (0 : ℚ) ≤ ((matchList.filterMap
          (fun m => findProduct db m.productId)).length : ℚ) :=
        Nat.cast_nonneg _
      have hws : (0 : ℚ) ≤ ((matchList.filterMap (fun m => findProduct db m.productId)).map
          (fun r => min r.warrantyYears 5)).sum := by
        apply List.sum_nonneg
        intro x hx
        rcases List.mem_map.1 hx with ⟨r, hr, rfl⟩
        rcases List.mem_filterMap.1 hr with ⟨m, _, hfind⟩
        have hrdb : r ∈ db := List.mem_of_find?_eq_some hfind
        exact le_min (hw r hrdb) (by norm_num)
      have b1 : (0 : ℚ) ≤ (((matchList.filterMap (fun m => findProduct db m.productId)).filter
          (fun r => lowerS r.bisCertified == "yes")).length : ℚ) := Nat.cast_nonneg _
      have b2 : (0 : ℚ) ≤ (((matchList.filterMap (fun m => findProduct db m.productId)).filter
          (fun r => ["is", "iec", "ieee", "iso"].any
            (fun s => containsS (lowerS r.standardsCompliance) s))).length : ℚ) :=
        Nat.cast_nonneg _
      have t1 := div_nonneg b1 htot
      have t2 := div_nonneg b2 htot
      have t3 := div_nonneg (div_nonneg hws htot) (by norm_num : (0:ℚ) ≤ 5)
      nlinarith

theorem score_risk_bounds (db : List Product) (matchList : List QMatch) (p : ℚ) :
    0 ≤ score_risk_assessment_q db matchList p
    ∧ score_risk_assessment_q db matchList p ≤ 100 := by
  unfold score_risk_assessment_q
  split_ifs
  · norm_num
  · refine ⟨le_min ?_ (by norm_num), min_le_right _ _⟩
    refine add_nonneg (add_nonneg ?_ ?_) ?_
    · exact le_min (by positivity) (by norm_num)
    · exact le_min (by positivity) (by norm_num)
    · exact le_max_right _ _

theorem finalRaw_bounds (db : List Product) (matchList : List QMatch)
    (estimatedPrice : ℚ) (deadlineDays : Option ℚ)
    (hw : ∀ p ∈ db, 0 ≤ p.warrantyYears) :
    0 ≤ finalRaw db matchList estimatedPrice deadlineDays
    ∧ finalRaw db matchList estimatedPrice deadlineDays ≤ 100 := by
  rcases score_technical_match_bounds matchList with ⟨t0, t1⟩
  rcases score_price_bounds db estimatedPrice matchList with ⟨p0, p1⟩
  rcases score_delivery_bounds db matchList deadlineDays with ⟨d0, d1⟩
  rcases score_compliance_bounds db matchList hw with ⟨c0, c1⟩
  rcases score_risk_bounds db matchList estimatedPrice with ⟨r0, r1⟩
  have d0' : (0 : ℝ) ≤ (score_delivery_capability_q db matchList deadlineDays : ℝ) := by
    exact_mod_cast d0
  have d1' : (score_delivery_capability_q db matchList deadlineDays : ℝ) ≤ 100 := by
    exact_mod_cast d1
  have c0' : (0 : ℝ) ≤ (score_compliance_q db matchList : ℝ) := by exact_mod_cast c0
  have c1' : (score_compliance_q db matchList : ℝ) ≤ 100 := by exact_mod_cast c1
  have r0' : (0 : ℝ) ≤ (score_risk_assessment_q db matchList estimatedPrice : ℝ) := by
    exact_mod_cast r0
  have r1' : (score_risk_assessment_q db matchList estimatedPrice : ℝ) ≤ 100 := by
    exact_mod_cast r1
  unfold finalRaw wTechnicalMatch wPriceCompetitiveness wDeliveryCapability wCompliance
    wRiskScore
  constructor <;> nlinarith

/-- C1: every returned component score lies in [0, 100], the returned final
score lies in [0, 100], and the final score equals the weighted sum of the
returned component scores — technical x 0.35 + price x 0.25 +
delivery x 0.15 + compliance x 0.15 + risk x 0.10 — within the 0.01
rounding tolerance.  The catalog is assumed to carry non-negative warranty
years, as the reference data does. -/
theorem c1_final_score_bounds_and_weighted_sum (db : List Product)
    (matchList : List QMatch) (estimatedPrice : ℚ) (deadlineDays : Option ℚ)
    (hw : ∀ p ∈ db, 0 ≤ p.warrantyYears) :
    (0 ≤ (calculate_final_score db matchList estimatedPrice
        deadlineDays).componentScores.technicalMatch
      ∧ (calculate_final_score db matchList estimatedPrice
        deadlineDays).componentScores.technicalMatch ≤ 100)
    ∧ (0 ≤ (calculate_final_score db matchList estimatedPrice
        deadlineDays).componentScores.priceCompetitiveness
      ∧ (calculate_final_score db matchList estimatedPrice
        deadlineDays).componentScores.priceCompetitiveness ≤ 100)
    ∧ (0 ≤ (calculate_final_score db matchList estimatedPrice
        deadlineDays).componentScores.deliveryCapability
      ∧ (calculate_final_score db matchList estimatedPrice
        deadlineDays).componentScores.deliveryCapability ≤ 100)
    ∧ (0 ≤ (calculate_final_score db matchList estimatedPrice
        deadlineDays).componentScores.compliance
      ∧ (calculate_final_score db matchList estimatedPrice
        deadlineDays).componentScores.compliance ≤ 100)
    ∧ (0 ≤ (calculate_final_score db matchList estimatedPrice
        deadlineDays).componentScores.riskAssessment
      ∧ (calculate_final_score db matchList estimatedPrice
        deadlineDays).componentScores.riskAssessment ≤ 100)
    ∧ (0 ≤ (calculate_final_score db matchList estimatedPrice deadlineDays).finalScore
      ∧ (calculate_final_score db matchList estimatedPrice deadlineDays).finalScore ≤ 100)
    ∧ |(calculate_final_score db matchList estimatedPrice deadlineDays).finalScore
        - ((calculate_final_score db matchList estimatedPrice
              deadlineDays).componentScores.technicalMatch * 0.35
          + (calculate_final_score db matchList estimatedPrice
              deadlineDays).componentScores.priceCompetitiveness * 0.25
          + (calculate_final_score db matchList estimatedPrice
              deadlineDays).componentScores.deliveryCapability * 0.15
          + (calculate_final_score db matchList estimatedPrice
              deadlineDays).componentScores.compliance * 0.15
          + (calculate_final_score db matchList estimatedPrice
              deadlineDays).componentScores.riskAssessment * 0.10)| ≤ 0.01 := by
  rcases score_technical_match_bounds matchList with ⟨t0, t1⟩
  rcases score_price_bounds db estimatedPrice matchList with ⟨p0, p1⟩
  rcases score_delivery_bounds db matchList deadlineDays with ⟨d0q, d1q⟩
  rcases score_compliance_bounds db matchList hw with ⟨c0q, c1q⟩
  rcases score_risk_bounds db matchList estimatedPrice with ⟨r0q, r1q⟩
  have d0 : (0 : ℝ) ≤ ((score_delivery_capability_q db matchList deadlineDays : ℚ) : ℝ) := by
    exact_mod_cast d0q
  have d1 : ((score_delivery_capability_q db matchList deadlineDays : ℚ) : ℝ) ≤ 100 := by
    exact_mod_cast d1q
  have c0 : (0 : ℝ) ≤ ((score_compliance_q db matchList : ℚ) : ℝ) := by exact_mod_cast c0q
  have c1 : ((score_compliance_q db matchList : ℚ) : ℝ) ≤ 100 := by exact_mod_cast c1q
  have r0 : (0 : ℝ) ≤ ((score_risk_assessment_q db matchList estimatedPrice : ℚ) : ℝ) := by
    exact_mod_cast r0q
  have r1 : ((score_risk_assessment_q db matchList estimatedPrice : ℚ) : ℝ) ≤ 100 := by
    exact_mod_cast r1q
  rcases finalRaw_bounds db matchList estimatedPrice deadlineDays hw with ⟨f0, f1⟩
  refine ⟨?_, ?_, ?_, ?_, ?_, ?_, ?_⟩
  · exact round2R_mem_Icc t0 t1
  · exact round2R_mem_Icc p0 p1
  · exact round2R_mem_Icc d0 d1
  · exact round2R_mem_Icc c0 c1
  · exact round2R_mem_Icc r0 r1
  · exact round2R_mem_Icc f0 f1
  · show |round2R (finalRaw db matchList estimatedPrice deadlineDays)
        - (round2R (score_technical_match matchList) * 0.35
          + round2R (score_price_competitiveness db estimatedPrice matchList) * 0.25
          + round2R ((score_delivery_capability_q db matchList deadlineDays : ℚ) : ℝ) * 0.15
          + round2R ((score_compliance_q db matchList : ℚ) : ℝ) * 0.15
          + round2R ((score_risk_assessment_q db matchList estimatedPrice : ℚ) : ℝ)
              * 0.10)| ≤ 0.01
    have hF : finalRaw db matchList estimatedPrice deadlineDays
        = score_technical_match matchList * 0.35
          + score_price_competitiveness db estimatedPrice matchList * 0.25
          + ((score_delivery_capability_q db matchList deadlineDays : ℚ) : ℝ) * 0.15
          + ((score_compliance_q db matchList : ℚ) : ℝ) * 0.15
          + ((score_risk_assessment_q db matchList estimatedPrice : ℚ) : ℝ) * 0.10 := rfl
    rcases abs_le.1 (abs_round2R_sub (finalRaw db matchList estimatedPrice deadlineDays))
      with ⟨g0a, g0b⟩
    rcases abs_le.1 (abs_round2R_sub (score_technical_match matchList)) with ⟨g1a, g1b⟩
    rcases abs_le.1 (abs_round2R_sub (score_price_competitiveness db estimatedPrice
      matchList)) with ⟨g2a, g2b⟩
    rcases abs_le.1 (abs_round2R_sub
      ((score_delivery_capability_q db matchList deadlineDays : ℚ) : ℝ)) with ⟨g3a, g3b⟩
    rcases abs_le.1 (abs_round2R_sub ((score_compliance_q db matchList : ℚ) : ℝ))
      with ⟨g4a, g4b⟩
    rcases abs_le.1 (abs_round2R_sub
      ((score_risk_assessment_q db matchList estimatedPrice : ℚ) : ℝ)) with ⟨g5a, g5b⟩
    rw [abs_le]
    constructor <;> [nlinarith [hF]; nlinarith [hF]]

/-- C1 witness: the bounds and the weighted-sum identity at the empty
catalog and empty match list. -/
theorem c1_final_score_witness :
    0 ≤ (calculate_final_score [] [] 0 none).finalScore
    ∧ (calculate_final_score [] [] 0 none).finalScore ≤ 100 :=
  (c1_final_score_bounds_and_weighted_sum [] [] 0 none (by simp)).2.2.2.2.2.1

/-- C9 witness: the formula at the single 80-percent match. -/
theorem c9_technical_match_formula_witness :
    score_technical_match [⟨"P1", 80, "Cat", "Yes"⟩]
      = min
          ((((([(⟨"P1", 80, "Cat", "Yes"⟩ : QMatch)].take 5).enum.map
              (fun p => (p.2.specMatchPercent : ℝ) * Real.exp (-0.3 * (p.1 : ℝ)))).sum)
            / ((([(⟨"P1", 80, "Cat", "Yes"⟩ : QMatch)].take 5).enum.map
              (fun p => Real.exp (-0.3 * (p.1 : ℝ)))).sum))
          * min (1 + ((([(⟨"P1", 80, "Cat", "Yes"⟩ : QMatch)].filter
              (fun m => 70 ≤ m.specMatchPercent)).length : ℝ) - 1) * 0.05) 1.15)
          100 :=
  c9_technical_match_formula [⟨"P1", 80, "Cat", "Yes"⟩] (by simp)
    (by intro m hm; rw [List.mem_singleton.1 hm]; norm_num)

end RFPA
